import Mathlib

/-!
Verification development for the query-rewrite core of an analytics query
accelerator (baseline/query_router.py, baseline/prepare.py).

Part 1: a shallow embedding of the dynamically typed query descriptors and of
the five rewrite rules plus the router, faithful to the Python source,
including the places where the Python code can raise (modelled with Except).

Part 2: a typed descriptor model and an exact-arithmetic semantic model of the
execution engine and of the fallback assembler (both external collaborators,
modelled from the spec), used to settle the rewrite/fallback equivalence
claims.
-/

/-- Dynamic values, mirroring the Python values that occur in query
descriptors: None, ints, strings, lists, dicts with string keys. -/
inductive Py where
  | none : Py
  | int (n : ℤ) : Py
  | str (s : String) : Py
  | list (l : List Py) : Py
  | dict (l : List (String × Py)) : Py

/-- Python equality test of a descriptor value against a string literal
(comparisons across types are False, never an error). -/
def pyEqStr (p : Py) (s : String) : Bool :=
  match p with
  | .str t => t = s
  | _ => false

/-- Python equality test of a descriptor value against a list of string
literals, e.g. the source check group_by != [ .. ]. -/
def pyEqStrList (p : Py) (ss : List String) : Bool :=
  match p with
  | .list l => l.length = ss.length && (l.zip ss).all (fun q => pyEqStr q.1 q.2)
  | _ => false

/-- Python truthiness of a value. -/
def pyTruthy (p : Py) : Bool :=
  match p with
  | .none => false
  | .int n => !(n = 0)
  | .str s => !(s = "")
  | .list l => !l.isEmpty
  | .dict l => !l.isEmpty

/-- Whether a Python value is hashable (may be a member of a set). -/
def pyHashable (p : Py) : Bool :=
  match p with
  | .list _ => false
  | .dict _ => false
  | _ => true

/-- First-match lookup in a dict body, with a default. -/
def lookupD (d : List (String × Py)) (k : String) (dflt : Py) : Py :=
  match d.find? (fun q => q.1 = k) with
  | some q => q.2
  | Option.none => dflt

/-- w.get(k, dflt): dict lookup with default; raises AttributeError when the
receiver is not a dict. -/
def pyGetAttr (p : Py) (k : String) (dflt : Py) : Except String Py :=
  match p with
  | .dict d => .ok (lookupD d k dflt)
  | _ => .error "AttributeError"

/-- len(p): defined for lists, strings and dicts; TypeError otherwise. -/
def pyLen (p : Py) : Except String Nat :=
  match p with
  | .list l => .ok l.length
  | .str s => .ok s.length
  | .dict d => .ok d.length
  | _ => .error "TypeError"

/-- Iteration (for x in p): lists yield elements, strings yield one-character
strings, dicts yield keys; TypeError otherwise. -/
def pyIter (p : Py) : Except String (List Py) :=
  match p with
  | .list l => .ok l
  | .str s => .ok (s.toList.map (fun c => .str c.toString))
  | .dict d => .ok (d.map (fun q => Py.str q.1))
  | _ => .error "TypeError"

/-- Whether the character list nd is a prefix of the character list hay. -/
def listStarts : List Char → List Char → Bool
  | _, [] => true
  | [], _ :: _ => false
  | a :: as, b :: bs => a = b && listStarts as bs

/-- Whether nd occurs as a contiguous run inside hay. -/
def listHasRun (nd : List Char) : List Char → Bool
  | [] => listStarts [] nd
  | a :: t => listStarts (a :: t) nd || listHasRun nd t

/-- Python membership m in p: equality scan for lists, substring test for
strings, key test for dicts; TypeError otherwise. -/
def pyContains (p : Py) (m : String) : Except String Bool :=
  match p with
  | .list l => .ok (l.any (fun q => pyEqStr q m))
  | .str s => .ok (listHasRun m.toList s.toList)
  | .dict d => .ok (d.any (fun q => q.1 = m))
  | _ => .error "TypeError"

/-- Sequence unpacking a, b = p into exactly two components: two-element
lists, two-character strings and two-key dicts unpack; other lengths give
ValueError, other types TypeError. -/
def pyUnpack2 (p : Py) : Except String (Py × Py) :=
  match p with
  | .list [a, b] => .ok (a, b)
  | .list _ => .error "ValueError"
  | .str s =>
    match s.toList with
    | [a, b] => .ok (.str a.toString, .str b.toString)
    | _ => .error "ValueError"
  | .dict [a, b] => .ok (.str a.1, .str b.1)
  | .dict _ => .error "ValueError"
  | _ => .error "TypeError"

mutual
/-- str(p): Python string conversion, used by f-string interpolation. -/
def pyStr (p : Py) : String :=
  match p with
  | .none => "None"
  | .int n => toString n
  | .str s => s
  | .list l => "[" ++ String.intercalate ", " (pyReprList l) ++ "]"
  | .dict d => "\x7b" ++ String.intercalate ", " (pyReprDict d) ++ "\x7d"

/-- repr(p): Python repr, used for elements of rendered containers. -/
def pyRepr (p : Py) : String :=
  match p with
  | .none => "None"
  | .int n => toString n
  | .str s => "\x27" ++ s ++ "\x27"
  | .list l => "[" ++ String.intercalate ", " (pyReprList l) ++ "]"
  | .dict d => "\x7b" ++ String.intercalate ", " (pyReprDict d) ++ "\x7d"

def pyReprList : List Py → List String
  | [] => []
  | a :: t => pyRepr a :: pyReprList t

def pyReprDict : List (String × Py) → List String
  | [] => []
  | a :: t => ("\x27" ++ a.1 ++ "\x27: " ++ pyRepr a.2) :: pyReprDict t
end

/-- ASCII uppercase of one character (the letters appearing in order-by
direction strings; Python str.upper restricted to ASCII). -/
def charUpper (c : Char) : Char :=
  if 97 <= c.toNat && c.toNat <= 122 then Char.ofNat (c.toNat - 32) else c

/-- s.upper(): ASCII uppercase of a direction string. -/
def upperAscii (s : String) : String := ⟨s.data.map charUpper⟩

/-- Python any(..) over a generator: short-circuits on the first True, so
later elements are not evaluated (and cannot raise). -/
def anyM (f : Py → Except String Bool) : List Py → Except String Bool
  | [] => .ok false
  | x :: xs => do
    if (← f x) then pure true else anyM f xs

/-- set(l) == set of the two strings advertiser_id and type, as a Boolean on
the element list (set semantics: order and multiplicity do not matter). -/
def setEqAdvType (l : List Py) : Bool :=
  l.all (fun p => pyEqStr p "advertiser_id" || pyEqStr p "type")
    && l.any (fun p => pyEqStr p "advertiser_id")
    && l.any (fun p => pyEqStr p "type")

/-- set(p): the element list of the set built from p; lists of hashable
values, strings (character set) and dicts (key set) are acceptable, other
receivers raise TypeError, as does a list with an unhashable element. -/
def pySetElems (p : Py) : Except String (List Py) :=
  match p with
  | .list l => if l.all pyHashable then .ok l else .error "TypeError"
  | .str s => .ok (s.toList.map (fun c => .str c.toString))
  | .dict d => .ok (d.map (fun q => Py.str q.1))
  | _ => .error "TypeError"

/-! ## The rewritten queries emitted by the rules

Each rule, on match, emits an SQL string over exactly one rollup artifact.
The structure below records the emitted query: which artifact it reads, the
values interpolated into its WHERE clause, and the rendered ORDER BY clause.

  q1Sql: SELECT day, SUM(total_revenue) AS sum(bid_price)
         FROM read_parquet(data_store/agg_revenue_by_minute_publisher_country.parquet)
         GROUP BY day
  q2Sql c lo hi: same source, WHERE country = str(c) AND day BETWEEN str(lo)
         AND str(hi), GROUP BY publisher_id
  q3Sql oc: SELECT country, sum_of_price / count_of_purchases AS
         avg(total_price) FROM read_parquet(data_store/agg_purchase_summary.parquet) oc
  q4Sql oc: SELECT advertiser_id, type, event_count AS count_star()
         FROM read_parquet(data_store/agg_counts_by_advertiser_type.parquet) oc
  q5Sql d oc: SELECT minute, SUM(total_revenue) AS sum(bid_price) from the
         revenue rollup, WHERE day = str(d), GROUP BY minute, oc
-/
inductive RewrittenQuery where
  | q1Sql : RewrittenQuery
  | q2Sql (country dayStart dayEnd : Py) : RewrittenQuery
  | q3Sql (orderClause : String) : RewrittenQuery
  | q4Sql (orderClause : String) : RewrittenQuery
  | q5Sql (day : Py) (orderClause : String) : RewrittenQuery

/-- The single parquet artifact named in the FROM read_parquet(..) of the
emitted query. -/
def RewrittenQuery.table : RewrittenQuery → String
  | .q1Sql => "data_store/agg_revenue_by_minute_publisher_country.parquet"
  | .q2Sql _ _ _ => "data_store/agg_revenue_by_minute_publisher_country.parquet"
  | .q3Sql _ => "data_store/agg_purchase_summary.parquet"
  | .q4Sql _ => "data_store/agg_counts_by_advertiser_type.parquet"
  | .q5Sql _ _ => "data_store/agg_revenue_by_minute_publisher_country.parquet"

/-- All data sources the emitted query reads. Each emitted query has a single
FROM over one read_parquet call, so this is a one-element list. -/
def RewrittenQuery.readSources (r : RewrittenQuery) : List String := [r.table]

/-- The ORDER BY clause of the emitted query (empty when the emitted SQL has
no ORDER BY; in particular the Q1 and Q2 rewrites never emit one). -/
def RewrittenQuery.orderClause : RewrittenQuery → String
  | .q1Sql => ""
  | .q2Sql _ _ _ => ""
  | .q3Sql oc => oc
  | .q4Sql oc => oc
  | .q5Sql _ oc => oc

/-- The ORDER BY building loop shared verbatim by try_q3/q4/q5: for each item
o, col = o.get(col), direction = o.get(dir, asc).upper(), rendering
colMap(col) followed by the direction; empty clause when order_by is falsy.
colMap is the per-rule alias substitution applied to the column text. -/
def buildOrderClause (colMap : Py → String) (orderBy : Py) : Except String String := do
  if !(pyTruthy orderBy) then
    return ""
  else
    let items ← pyIter orderBy
    let parts ← items.mapM (fun o => do
      let col ← pyGetAttr o "col" .none
      let dirp ← pyGetAttr o "dir" (.str "asc")
      let dir ←
        match dirp with
        | .str s => pure (upperAscii s)
        | _ => .error "AttributeError"
      pure (colMap col ++ " " ++ dir))
    return "ORDER BY " ++ String.intercalate ", " parts

/-- Column rendering of the Q3 ORDER BY: AVG(total_price) is mapped to the
rollup output alias, anything else is interpolated as is. -/
def q3ColMap (col : Py) : String :=
  if pyEqStr col "AVG(total_price)" then "\"avg(total_price)\"" else pyStr col

/-- Column rendering of the Q4 ORDER BY: COUNT(*) is mapped to the rollup
output alias count_star(). -/
def q4ColMap (col : Py) : String :=
  if pyEqStr col "COUNT(*)" then "\"count_star()\"" else pyStr col

/-- Column rendering of the Q5 ORDER BY: passed through unchanged. -/
def q5ColMap (col : Py) : String := pyStr col

/-- The filter test inside the any(..) of try_q1_pattern / try_q3_pattern:
w.get(col) == c and w.get(op) == eq and w.get(val) == v. -/
def whereIsEqFilter (c v : String) (w : Py) : Except String Bool := do
  let col ← pyGetAttr w "col" .none
  let op ← pyGetAttr w "op" .none
  let val ← pyGetAttr w "val" .none
  pure (pyEqStr col c && pyEqStr op "eq" && pyEqStr val v)

/-- try_q1_pattern: daily revenue totals.
SELECT day, SUM(bid_price) FROM events WHERE type=impression GROUP BY day. -/
def try_q1_pattern (q : Py) : Except String (Option RewrittenQuery) := do
  let select ← pyGetAttr q "select" (.list [])
  let wh ← pyGetAttr q "where" (.list [])
  let group_by ← pyGetAttr q "group_by" (.list [])
  -- Must group by day only
  if !(pyEqStrList group_by ["day"]) then
    return Option.none
  -- Must have day and SUM(bid_price) in select
  let nsel ← pyLen select
  if !(nsel = 2) then
    return Option.none
  let has_day ← pyContains select "day"
  let has_sum_bid ← do
    let items ← pyIter select
    pure (items.any (fun s =>
      match s with
      | .dict d => pyEqStr (lookupD d "SUM" .none) "bid_price"
      | _ => false))
  if !(has_day && has_sum_bid) then
    return Option.none
  -- Must filter by type=impression
  let ws ← pyIter wh
  let has_impression_filter ← anyM (whereIsEqFilter "type" "impression") ws
  if !has_impression_filter then
    return Option.none
  -- Check if there are other filters (if so, cannot use the pre-agg)
  let nwh ← pyLen wh
  if nwh > 1 then
    return Option.none
  return some .q1Sql

/-- The body of the WHERE parsing loop of try_q2_pattern, threading the
(type_filter, country_filter, day_filter) state through each entry. -/
def q2FoldStep (st : Py × Py × Py) (w : Py) : Except String (Py × Py × Py) := do
  let col ← pyGetAttr w "col" .none
  let op ← pyGetAttr w "op" .none
  let val ← pyGetAttr w "val" .none
  if pyEqStr col "type" && pyEqStr op "eq" then
    pure (val, st.2.1, st.2.2)
  else if pyEqStr col "country" && pyEqStr op "eq" then
    pure (st.1, val, st.2.2)
  else if pyEqStr col "day" && pyEqStr op "between" then
    pure (st.1, st.2.1, val)
  else
    pure st

/-- try_q2_pattern: publisher revenue by country and date range.
Note: the loop only collects the recognized (column, operator) pairs; entries
with any other pair fall through without effect and without disqualifying the
match (this is the silent filter drop recorded against the spec). -/
def try_q2_pattern (q : Py) : Except String (Option RewrittenQuery) := do
  let select ← pyGetAttr q "select" (.list [])
  let wh ← pyGetAttr q "where" (.list [])
  let group_by ← pyGetAttr q "group_by" (.list [])
  -- Must group by publisher_id only
  if !(pyEqStrList group_by ["publisher_id"]) then
    return Option.none
  -- Must have publisher_id and SUM(bid_price)
  let nsel ← pyLen select
  if !(nsel = 2) then
    return Option.none
  let has_publisher ← pyContains select "publisher_id"
  let has_sum_bid ← do
    let items ← pyIter select
    pure (items.any (fun s =>
      match s with
      | .dict d => pyEqStr (lookupD d "SUM" .none) "bid_price"
      | _ => false))
  if !(has_publisher && has_sum_bid) then
    return Option.none
  -- Parse WHERE conditions
  let ws ← pyIter wh
  let st ← ws.foldlM q2FoldStep (Py.none, Py.none, Py.none)
  -- Must have type=impression
  if !(pyEqStr st.1 "impression") then
    return Option.none
  -- Must have country and day filters
  if !(pyTruthy st.2.1) || !(pyTruthy st.2.2) then
    return Option.none
  let bounds ← pyUnpack2 st.2.2
  return some (.q2Sql st.2.1 bounds.1 bounds.2)

/-- try_q3_pattern: average purchase value by country, reconstructing AVG as
sum_of_price / count_of_purchases over the purchase summary rollup. -/
def try_q3_pattern (q : Py) : Except String (Option RewrittenQuery) := do
  let select ← pyGetAttr q "select" (.list [])
  let wh ← pyGetAttr q "where" (.list [])
  let group_by ← pyGetAttr q "group_by" (.list [])
  let order_by ← pyGetAttr q "order_by" (.list [])
  -- Must group by country only
  if !(pyEqStrList group_by ["country"]) then
    return Option.none
  -- Must have country and AVG(total_price)
  let nsel ← pyLen select
  if !(nsel = 2) then
    return Option.none
  let has_country ← pyContains select "country"
  let has_avg_price ← do
    let items ← pyIter select
    pure (items.any (fun s =>
      match s with
      | .dict d => pyEqStr (lookupD d "AVG" .none) "total_price"
      | _ => false))
  if !(has_country && has_avg_price) then
    return Option.none
  -- Must filter by type=purchase
  let ws ← pyIter wh
  let has_purchase_filter ← anyM (whereIsEqFilter "type" "purchase") ws
  if !has_purchase_filter then
    return Option.none
  let nwh ← pyLen wh
  if nwh > 1 then
    return Option.none
  let oc ← buildOrderClause q3ColMap order_by
  return some (.q3Sql oc)

/-- try_q4_pattern: event counts by advertiser and type; group_by is compared
as a set against the pair of grouping dimensions; no WHERE clause permitted. -/
def try_q4_pattern (q : Py) : Except String (Option RewrittenQuery) := do
  let select ← pyGetAttr q "select" (.list [])
  let wh ← pyGetAttr q "where" (.list [])
  let group_by ← pyGetAttr q "group_by" (.list [])
  let order_by ← pyGetAttr q "order_by" (.list [])
  -- Must group by advertiser_id and type
  let gset ← pySetElems group_by
  if !(setEqAdvType gset) then
    return Option.none
  -- Must have advertiser_id, type, and COUNT(*)
  let nsel ← pyLen select
  if !(nsel = 3) then
    return Option.none
  let has_advertiser ← pyContains select "advertiser_id"
  let has_type ← pyContains select "type"
  let has_count ← do
    let items ← pyIter select
    pure (items.any (fun s =>
      match s with
      | .dict d => pyEqStr (lookupD d "COUNT" .none) "*"
      | _ => false))
  if !(has_advertiser && has_type && has_count) then
    return Option.none
  -- Should have no WHERE clause (or the pre-agg cannot be used safely)
  if pyTruthy wh then
    return Option.none
  let oc ← buildOrderClause q4ColMap order_by
  return some (.q4Sql oc)

/-- The body of the WHERE parsing loop of try_q5_pattern, threading the
(type_filter, day_filter) state through each entry. -/
def q5FoldStep (st : Py × Py) (w : Py) : Except String (Py × Py) := do
  let col ← pyGetAttr w "col" .none
  let op ← pyGetAttr w "op" .none
  let val ← pyGetAttr w "val" .none
  if pyEqStr col "type" && pyEqStr op "eq" then
    pure (val, st.2)
  else if pyEqStr col "day" && pyEqStr op "eq" then
    pure (st.1, val)
  else
    pure st

/-- try_q5_pattern: revenue by minute for one specific day. -/
def try_q5_pattern (q : Py) : Except String (Option RewrittenQuery) := do
  let select ← pyGetAttr q "select" (.list [])
  let wh ← pyGetAttr q "where" (.list [])
  let group_by ← pyGetAttr q "group_by" (.list [])
  let order_by ← pyGetAttr q "order_by" (.list [])
  -- Must group by minute only
  if !(pyEqStrList group_by ["minute"]) then
    return Option.none
  -- Must have minute and SUM(bid_price)
  let nsel ← pyLen select
  if !(nsel = 2) then
    return Option.none
  let has_minute ← pyContains select "minute"
  let has_sum_bid ← do
    let items ← pyIter select
    pure (items.any (fun s =>
      match s with
      | .dict d => pyEqStr (lookupD d "SUM" .none) "bid_price"
      | _ => false))
  if !(has_minute && has_sum_bid) then
    return Option.none
  -- Parse WHERE conditions
  let ws ← pyIter wh
  let st ← ws.foldlM q5FoldStep (Py.none, Py.none)
  -- Must have type=impression and day filter
  if !(pyEqStr st.1 "impression") || !(pyTruthy st.2) then
    return Option.none
  -- Check no other filters
  let nwh ← pyLen wh
  if nwh > 2 then
    return Option.none
  let oc ← buildOrderClause q5ColMap order_by
  return some (.q5Sql st.2 oc)

/-- route_query: try each pattern in order, mirroring the short-circuiting
chain try_q1 or try_q2 or .. or try_q5 (an emitted SQL string is truthy, None
is falsy, and an exception in any rule propagates). -/
def route_query (q : Py) : Except String (Option RewrittenQuery) := do
  match ← try_q1_pattern q with
  | some sql => pure (some sql)
  | Option.none =>
  match ← try_q2_pattern q with
  | some sql => pure (some sql)
  | Option.none =>
  match ← try_q3_pattern q with
  | some sql => pure (some sql)
  | Option.none =>
  match ← try_q4_pattern q with
  | some sql => pure (some sql)
  | Option.none =>
  match ← try_q5_pattern q with
  | some sql => pure (some sql)
  | Option.none => pure Option.none

/-! ## Typed query descriptors

The spec describes a Query Descriptor as a structured value (select list of
bare columns or single aggregate applications, a set of eq/between filters,
group-by and order-by lists).  The typed model below, injected into the
dynamic Py form by toPy, is how well-formed descriptors are written down. -/

/-- A scalar filter value carried by a descriptor (a string or an int). -/
inductive Scalar where
  | str (s : String) : Scalar
  | int (n : ℤ) : Scalar
deriving DecidableEq

/-- Aggregate functions available in a select item. -/
inductive AggFn where
  | SUM | AVG | COUNT
deriving DecidableEq

/-- A projection item: a bare column or an aggregate application. -/
inductive SelItem where
  | col (c : String) : SelItem
  | agg (f : AggFn) (c : String) : SelItem
deriving DecidableEq

/-- A filter predicate: an equality or an inclusive between range. -/
inductive FilterPred where
  | feq (c : String) (v : Scalar) : FilterPred
  | fbetween (c : String) (lo hi : Scalar) : FilterPred
deriving DecidableEq

/-- An order-by item: column or aggregate expression text plus direction. -/
structure OrderItem where
  col : String
  dir : String
deriving DecidableEq

/-- A typed query descriptor. -/
structure Descriptor where
  select : List SelItem
  whereFs : List FilterPred
  group_by : List String
  order_by : List OrderItem

def AggFn.name : AggFn → String
  | .SUM => "SUM"
  | .AVG => "AVG"
  | .COUNT => "COUNT"

def Scalar.toPy : Scalar → Py
  | .str s => .str s
  | .int n => .int n

def SelItem.toPy : SelItem → Py
  | .col c => .str c
  | .agg f c => .dict [(f.name, .str c)]

def FilterPred.toPy : FilterPred → Py
  | .feq c v => .dict [("col", .str c), ("op", .str "eq"), ("val", v.toPy)]
  | .fbetween c lo hi =>
      .dict [("col", .str c), ("op", .str "between"),
             ("val", .list [lo.toPy, hi.toPy])]

def OrderItem.toPy (o : OrderItem) : Py :=
  .dict [("col", .str o.col), ("dir", .str o.dir)]

/-- The dict-shaped descriptor value handed to the router. -/
def Descriptor.toPy (d : Descriptor) : Py :=
  .dict [("select", .list (d.select.map SelItem.toPy)),
         ("where", .list (d.whereFs.map FilterPred.toPy)),
         ("group_by", .list (d.group_by.map Py.str)),
         ("order_by", .list (d.order_by.map OrderItem.toPy))]

/-- The canonical Q1 descriptor family: daily revenue totals. -/
def q1Desc (ob : List OrderItem) : Descriptor :=
  ⟨[.col "day", .agg .SUM "bid_price"],
   [.feq "type" (.str "impression")],
   ["day"], ob⟩

/-- The canonical Q2 descriptor family: publisher revenue for one country
and day range. -/
def q2Desc (c lo hi : String) (ob : List OrderItem) : Descriptor :=
  ⟨[.col "publisher_id", .agg .SUM "bid_price"],
   [.feq "type" (.str "impression"), .feq "country" (.str c),
    .fbetween "day" (.str lo) (.str hi)],
   ["publisher_id"], ob⟩

/-- The canonical Q3 descriptor family: average purchase value by country. -/
def q3Desc (ob : List OrderItem) : Descriptor :=
  ⟨[.col "country", .agg .AVG "total_price"],
   [.feq "type" (.str "purchase")],
   ["country"], ob⟩

/-- The canonical Q4 descriptor family: event counts by advertiser and type;
the grouping list g is any list whose element set is advertiser_id, type. -/
def q4Desc (g : List String) (ob : List OrderItem) : Descriptor :=
  ⟨[.col "advertiser_id", .col "type", .agg .COUNT "*"],
   [], g, ob⟩

/-- The canonical Q5 descriptor family: per-minute revenue for one day. -/
def q5Desc (dv : String) (ob : List OrderItem) : Descriptor :=
  ⟨[.col "minute", .agg .SUM "bid_price"],
   [.feq "type" (.str "impression"), .feq "day" (.str dv)],
   ["minute"], ob⟩

/-- Typed rendering of the ORDER BY clause the rules emit, with the
per-rule column-text substitution colMap. -/
def renderOrder (colMap : String → String) (ob : List OrderItem) : String :=
  if ob.isEmpty then ""
  else "ORDER BY " ++ String.intercalate ", "
    (ob.map (fun o => colMap o.col ++ " " ++ upperAscii o.dir))

def q3ColMapT (c : String) : String :=
  if c = "AVG(total_price)" then "\"avg(total_price)\"" else c

def q4ColMapT (c : String) : String :=
  if c = "COUNT(*)" then "\"count_star()\"" else c

/-! ## Semantic model

Modelled from the spec: the execution engine is an external collaborator
(spec section 6) that evaluates SQL over the partitioned base dataset and the
rollup artifacts; results are compared as order-independent sets of rows, so
the model ignores ORDER BY.  Numeric values are exact rationals standing for
the doubles of the engine; NULL follows SQL semantics (aggregates skip NULL,
comparisons with NULL are not satisfied). -/

/-- A result-set cell value. -/
inductive Val where
  | vnull : Val
  | vstr (s : String) : Val
  | vint (n : ℤ) : Val
  | vrat (q : ℚ) : Val
deriving DecidableEq

def ovStr : Option String → Val
  | Option.none => .vnull
  | some s => .vstr s

def ovInt : Option ℤ → Val
  | Option.none => .vnull
  | some n => .vint n

def ovRat : Option ℚ → Val
  | Option.none => .vnull
  | some q => .vrat q

/-- A row of the partitioned base dataset (the events table produced by
prepare.py: ts, week, day, hour, minute, type, auction_id, advertiser_id,
publisher_id, bid_price, user_id, total_price, country, any field NULL).
Timestamps and the derived time buckets are carried as their rendered
strings; day is the ISO date string, minute the minute-bucket string. -/
structure Event where
  ts : Option String := Option.none
  week : Option String := Option.none
  day : Option String := Option.none
  hour : Option String := Option.none
  minute : Option String := Option.none
  type : Option String := Option.none
  auction_id : Option String := Option.none
  advertiser_id : Option ℤ := Option.none
  publisher_id : Option ℤ := Option.none
  bid_price : Option ℚ := Option.none
  user_id : Option ℤ := Option.none
  total_price : Option ℚ := Option.none
  country : Option String := Option.none
deriving DecidableEq

/-- The value of a named column in a base row. -/
def colVal (e : Event) (c : String) : Val :=
  match c with
  | "ts" => ovStr e.ts
  | "week" => ovStr e.week
  | "day" => ovStr e.day
  | "hour" => ovStr e.hour
  | "minute" => ovStr e.minute
  | "type" => ovStr e.type
  | "auction_id" => ovStr e.auction_id
  | "advertiser_id" => ovInt e.advertiser_id
  | "publisher_id" => ovInt e.publisher_id
  | "bid_price" => ovRat e.bid_price
  | "user_id" => ovInt e.user_id
  | "total_price" => ovRat e.total_price
  | "country" => ovStr e.country
  | _ => .vnull

/-- SQL SUM over a column of nullable numbers: NULL when no non-NULL input,
otherwise the sum of the non-NULL inputs. -/
def sqlSum (xs : List (Option ℚ)) : Option ℚ :=
  if xs.reduceOption.isEmpty then Option.none else some xs.reduceOption.sum

/-- NULL-skipping addition, the merge operation of sqlSum. -/
def optAdd : Option ℚ → Option ℚ → Option ℚ
  | Option.none, b => b
  | some a, Option.none => some a
  | some a, some b => some (a + b)

/-- SQL equality of a cell against a literal: NULL never compares equal;
numbers compare numerically across int and double. -/
def valEqB : Val → Val → Bool
  | .vstr a, .vstr b => a = b
  | .vint a, .vint b => a = b
  | .vrat a, .vrat b => a = b
  | .vint a, .vrat b => (a : ℚ) = b
  | .vrat a, .vint b => a = (b : ℚ)
  | _, _ => false

/-- SQL ordering of a cell against a literal: strings lexicographically,
numbers numerically; comparisons involving NULL are not satisfied. -/
def valLeB : Val → Val → Bool
  | .vstr a, .vstr b => a ≤ b
  | .vint a, .vint b => a ≤ b
  | .vrat a, .vrat b => a ≤ b
  | .vint a, .vrat b => (a : ℚ) ≤ b
  | .vrat a, .vint b => a ≤ (b : ℚ)
  | _, _ => false

def Scalar.val : Scalar → Val
  | .str s => .vstr s
  | .int n => .vint n

/-- Whether a base row satisfies one filter predicate (eq is equality,
between the inclusive range, per the fallback assembler contract). -/
def evalFilter (f : FilterPred) (e : Event) : Bool :=
  match f with
  | .feq c v => valEqB (colVal e c) v.val
  | .fbetween c lo hi =>
      valLeB lo.val (colVal e c) && valLeB (colVal e c) hi.val

/-- The value of a selected bare column, resolved against the group key (the
fallback contract only selects grouped columns; others yield NULL). -/
def keyLookup : List String → List Val → String → Val
  | [], _, _ => .vnull
  | _ :: _, [], _ => .vnull
  | c0 :: cs, v :: vs, c => if c0 = c then v else keyLookup cs vs c

/-- The nullable numeric reading of a column, as consumed by SUM and AVG. -/
def numCol (c : String) (e : Event) : Option ℚ :=
  match colVal e c with
  | .vint n => some (n : ℚ)
  | .vrat q => some q
  | _ => Option.none

/-- SQL AVG over a column of nullable numbers: the sum of the non-NULL
inputs divided by their count, NULL when there are none. -/
def avgVal (xs : List (Option ℚ)) : Val :=
  match sqlSum xs with
  | Option.none => .vnull
  | some s => .vrat (s / (xs.reduceOption.length : ℚ))

/-- One select item evaluated for one group (grp = the rows of the group,
k = the group key, cols = the group-by columns). -/
def evalSelItem (cols : List String) (k : List Val) (grp : List Event) :
    SelItem → Val
  | .col c => keyLookup cols k c
  | .agg .SUM c => ovRat (sqlSum (grp.map (numCol c)))
  | .agg .AVG c => avgVal (grp.map (numCol c))
  | .agg .COUNT c =>
      if c = "*" then .vint grp.length
      else .vint (grp.filter (fun e => !(colVal e c = Val.vnull : Bool))).length

/-- Modelled from the spec: the Fallback Assembler (assembler.py, not part of
the sources here) translates any descriptor into a semantically equivalent
query over the full base dataset: conjunction of its filters, grouping by its
group_by columns, projecting its select items in order.  Row order (and hence
order_by) does not affect the result as an order-independent set of rows, so
it is not modelled. -/
def fallbackEval (d : Descriptor) (data : List Event) : List (List Val) :=
  let rows := data.filter (fun e => d.whereFs.all (fun f => evalFilter f e))
  let cols := d.group_by
  if cols.isEmpty then
    [d.select.map (evalSelItem cols [] rows)]
  else
    ((rows.map (fun e => cols.map (colVal e))).dedup).map (fun k =>
      d.select.map (evalSelItem cols k
        (rows.filter (fun e => decide (cols.map (colVal e) = k)))))

/-! ## The rollup artifacts (from prepare.py) -/

/-- The impression rows feeding the revenue rollup (WHERE type=impression). -/
def impressions (data : List Event) : List Event :=
  data.filter (fun e => decide (e.type = some "impression"))

/-- The purchase rows feeding the purchase summary (WHERE type=purchase). -/
def purchases (data : List Event) : List Event :=
  data.filter (fun e => decide (e.type = some "purchase"))

/-- The advertiser/type grouping key of rollup agg_counts_by_advertiser_type. -/
def akey (e : Event) : Option ℤ × Option String := (e.advertiser_id, e.type)

/-- The grain of agg_revenue_by_minute_publisher_country:
(minute, day, publisher_id, country). -/
def bkey (e : Event) : Option String × Option String × Option ℤ × Option String :=
  (e.minute, e.day, e.publisher_id, e.country)

/-- agg_counts_by_advertiser_type.parquet: one row per distinct
(advertiser_id, type) with event_count = COUNT(*). -/
def rollupA (data : List Event) :
    List ((Option ℤ × Option String) × ℕ) :=
  ((data.map akey).dedup).map (fun k =>
    (k, (data.filter (fun e => decide (akey e = k))).length))

/-- agg_revenue_by_minute_publisher_country.parquet: impression rows grouped
by (minute, day, publisher_id, country), total_revenue = SUM(bid_price). -/
def rollupB (data : List Event) :
    List ((Option String × Option String × Option ℤ × Option String) × Option ℚ) :=
  (((impressions data).map bkey).dedup).map (fun k =>
    (k, sqlSum (((impressions data).filter
          (fun e => decide (bkey e = k))).map Event.bid_price)))

/-- agg_purchase_summary.parquet: purchase rows grouped by country,
sum_of_price = SUM(total_price), count_of_purchases = COUNT(total_price)
(the count of non-NULL total_price values). -/
def rollupC (data : List Event) :
    List (Option String × Option ℚ × ℕ) :=
  (((purchases data).map Event.country).dedup).map (fun c =>
    (c, sqlSum (((purchases data).filter
          (fun e => decide (e.country = c))).map Event.total_price),
        (((purchases data).filter
          (fun e => decide (e.country = c))).map Event.total_price).reduceOption.length))

/-- The division sum_of_price / count_of_purchases of the Q3 rewrite; a NULL
numerator yields NULL (a zero count only occurs together with a NULL sum in
a rollup row, so the zero-divisor branch is never reached on rollup data). -/
def divVal (s : Option ℚ) (n : ℕ) : Val :=
  match s with
  | Option.none => .vnull
  | some q => if n = 0 then .vnull else .vrat (q / (n : ℚ))

/-- day BETWEEN lo AND hi on a nullable day string (NULL never satisfies). -/
def dayBtw (lo hi : String) : Option String → Bool
  | Option.none => false
  | some s => lo ≤ s && s ≤ hi

/-- Modelled from the spec: the execution engine (spec section 6) evaluating
each emitted rollup query over the rollups built from the base dataset.
Each branch is the direct reading of the SQL the rule emits; ORDER BY is
ignored because results are compared as order-independent sets of rows. -/
def rewriteEval (r : RewrittenQuery) (data : List Event) : List (List Val) :=
  match r with
  | .q1Sql =>
    let B := rollupB data
    ((B.map (fun r => r.1.2.1)).dedup).map (fun d =>
      [ovStr d, ovRat (sqlSum ((B.filter
          (fun r => decide (r.1.2.1 = d))).map Prod.snd))])
  | .q2Sql c lo hi =>
    let B := (rollupB data).filter (fun r =>
      decide (r.1.2.2.2 = some (pyStr c)) && dayBtw (pyStr lo) (pyStr hi) r.1.2.1)
    ((B.map (fun r => r.1.2.2.1)).dedup).map (fun p =>
      [ovInt p, ovRat (sqlSum ((B.filter
          (fun r => decide (r.1.2.2.1 = p))).map Prod.snd))])
  | .q3Sql _ =>
    (rollupC data).map (fun r => [ovStr r.1, divVal r.2.1 r.2.2])
  | .q4Sql _ =>
    (rollupA data).map (fun r => [ovInt r.1.1, ovStr r.1.2, Val.vint r.2])
  | .q5Sql dv _ =>
    let B := (rollupB data).filter (fun r => decide (r.1.2.1 = some (pyStr dv)))
    ((B.map (fun r => r.1.1)).dedup).map (fun m =>
      [ovStr m, ovRat (sqlSum ((B.filter
          (fun r => decide (r.1.1 = m))).map Prod.snd))])

/-! ## Ingestion batch handling (from prepare.py)

prepare_from_directory and prepare_from_zip share the same loading loop: for
each CSV batch, an empty batch is skipped with a warning and the loop
continues; a non-empty batch is transformed by the engine and appended to the
events table (one events row per CSV row). -/

/-- One raw CSV record (all columns read as nullable strings). -/
structure RawRow where
  ts : Option String := Option.none
  type : Option String := Option.none
  auction_id : Option String := Option.none
  advertiser_id : Option String := Option.none
  publisher_id : Option String := Option.none
  bid_price : Option String := Option.none
  user_id : Option String := Option.none
  total_price : Option String := Option.none
  country : Option String := Option.none

/-- The batch loading loop of the prepare phase: returns the loaded rows and
the number of emitted empty-batch warnings.  Total on every input: an empty
batch increments the warning count and the loop continues. -/
def prepareLoad (batches : List (List RawRow)) : List RawRow × ℕ :=
  batches.foldl
    (fun acc b => if b.isEmpty then (acc.1, acc.2 + 1) else (acc.1 ++ b, acc.2))
    ([], 0)

/-! ## List and sum lemmas -/

theorem map_filter_swap {α β : Type} (g : α → β) (p : β → Bool) (l : List α) :
    (l.map g).filter p = (l.filter (fun a => p (g a))).map g := by
  induction l with
  | nil => rfl
  | cons a t ih =>
    by_cases h : p (g a) <;> simp [List.filter_cons, h, ih]

theorem reduceOption_eq_nil {α : Type} (l : List (Option α)) :
    l.reduceOption = [] ↔ ∀ x ∈ l, x = Option.none := by
  induction l with
  | nil => simp
  | cons a t ih =>
    cases a <;> simp [List.reduceOption_cons_of_some, ih]

theorem sqlSum_nil : sqlSum [] = Option.none := rfl

theorem sqlSum_cons (x : Option ℚ) (l : List (Option ℚ)) :
    sqlSum (x :: l) = optAdd x (sqlSum l) := by
  cases x with
  | none =>
    simp [sqlSum, optAdd, List.reduceOption_cons_of_none]
  | some a =>
    simp only [sqlSum, List.reduceOption_cons_of_some]
    rcases h : l.reduceOption with _ | ⟨y, ys⟩ <;>
      simp [h, optAdd, List.sum_cons]

theorem sqlSum_eq_none (l : List (Option ℚ)) :
    sqlSum l = Option.none ↔ ∀ x ∈ l, x = Option.none := by
  rw [← reduceOption_eq_nil]
  simp only [sqlSum]
  rcases h : l.reduceOption with _ | ⟨y, ys⟩ <;> simp [h]

theorem optAdd_assoc (a b c : Option ℚ) :
    optAdd (optAdd a b) c = optAdd a (optAdd b c) := by
  cases a <;> cases b <;> cases c <;> simp [optAdd, add_assoc]

theorem optAdd_comm (a b : Option ℚ) : optAdd a b = optAdd b a := by
  cases a <;> cases b <;> simp [optAdd, add_comm]

theorem optAdd_left_comm (a b c : Option ℚ) :
    optAdd a (optAdd b c) = optAdd b (optAdd a c) := by
  cases a <;> cases b <;> cases c <;> simp [optAdd, add_comm, add_left_comm]

/-- Splitting sqlSum over a disjunction of mutually exclusive filters. -/
theorem sqlSum_filter_or {α : Type} (f : α → Option ℚ) (p r : α → Bool)
    (hd : ∀ a, p a = true → r a = false) (xs : List α) :
    sqlSum ((xs.filter (fun a => p a || r a)).map f)
      = optAdd (sqlSum ((xs.filter p).map f)) (sqlSum ((xs.filter r).map f)) := by
  induction xs with
  | nil => rfl
  | cons a t ih =>
    by_cases hp : p a = true
    · have hr : r a = false := hd a hp
      simp only [List.filter_cons, hp, hr, Bool.true_or, if_true, if_false,
        Bool.false_eq_true, List.map_cons, sqlSum_cons, ih, optAdd_assoc]
    · have hp' : p a = false := by simpa using hp
      by_cases hr : r a = true
      · simp only [List.filter_cons, hp', hr, Bool.false_or, if_true, if_false,
          Bool.false_eq_true, List.map_cons, sqlSum_cons, ih]
        rw [optAdd_left_comm]
      · have hr' : r a = false := by simpa using hr
        simp only [List.filter_cons, hp', hr', Bool.false_or, if_false,
          Bool.false_eq_true, ih]

/-- Summing the per-group sums over a duplicate-free list of keys equals the
sum over the rows whose key is in the list. -/
theorem sqlSum_grouped {α κ : Type} [DecidableEq κ] (k : α → κ) (f : α → Option ℚ) :
    ∀ (L : List κ), L.Nodup → ∀ (xs : List α),
    sqlSum (L.map (fun q => sqlSum ((xs.filter (fun a => decide (k a = q))).map f)))
      = sqlSum ((xs.filter (fun a => decide (k a ∈ L))).map f) := by
  intro L
  induction L with
  | nil =>
    intro _ xs
    simp [sqlSum_nil, List.filter_false]
  | cons q t ih =>
    intro hnd xs
    have hq : q ∉ t := (List.nodup_cons.mp hnd).1
    have ht : t.Nodup := (List.nodup_cons.mp hnd).2
    have hsplit := sqlSum_filter_or f (fun a => decide (k a = q))
      (fun a => decide (k a ∈ t))
      (by
        intro a hp
        have : k a = q := of_decide_eq_true hp
        subst this
        simpa using hq) xs
    have hcong : (xs.filter (fun a => decide (k a ∈ q :: t)))
        = (xs.filter (fun a => decide (k a = q) || decide (k a ∈ t))) := by
      apply List.filter_congr
      intro a _
      simp [List.mem_cons]
    rw [List.map_cons, sqlSum_cons, ih ht, hcong, hsplit]

/-- The regrouping identity: re-aggregating the per-fine-group sums of a
rollup over any selection of fine groups equals aggregating the underlying
rows directly over that selection.  This is the algebraic composability of
SUM that the rollup contract relies on. -/
theorem sqlSum_regroup {α κ : Type} [DecidableEq κ]
    (xs : List α) (k : α → κ) (P : κ → Bool) (f : α → Option ℚ) :
    sqlSum ((((xs.map k).dedup).filter P).map
        (fun q => sqlSum ((xs.filter (fun a => decide (k a = q))).map f)))
      = sqlSum ((xs.filter (fun a => P (k a))).map f) := by
  have hnd : (((xs.map k).dedup).filter P).Nodup :=
    (List.nodup_dedup _).filter _
  rw [sqlSum_grouped k f _ hnd xs]
  congr 1
  congr 1
  apply List.filter_congr
  intro a ha
  have hmem : k a ∈ (xs.map k).dedup := by
    rw [List.mem_dedup]
    exact List.mem_map_of_mem k ha
  by_cases hP : P (k a) = true
  · simp [List.mem_filter, hmem, hP]
  · have : P (k a) = false := by simpa using hP
    simp [List.mem_filter, this]

/-! ## Bridging the fallback filter semantics to row fields -/

theorem ovStr_inj (a b : Option String) : ovStr a = ovStr b ↔ a = b := by
  cases a <;> cases b <;> simp [ovStr]

theorem ovInt_inj (a b : Option ℤ) : ovInt a = ovInt b ↔ a = b := by
  cases a <;> cases b <;> simp [ovInt]

theorem valEqB_ovStr (t : Option String) (v : String) :
    valEqB (ovStr t) (.vstr v) = decide (t = some v) := by
  cases t <;> simp [ovStr, valEqB]

theorem valLeB_ovStr_left (t : Option String) (v : String) :
    valLeB (.vstr v) (ovStr t) = match t with
      | Option.none => false
      | some s => decide (v ≤ s) := by
  cases t <;> simp [ovStr, valLeB]

theorem evalFilter_type (e : Event) (v : String) :
    evalFilter (.feq "type" (.str v)) e = decide (e.type = some v) := by
  simp [evalFilter, colVal, Scalar.val, valEqB_ovStr]

theorem evalFilter_country (e : Event) (v : String) :
    evalFilter (.feq "country" (.str v)) e = decide (e.country = some v) := by
  simp [evalFilter, colVal, Scalar.val, valEqB_ovStr]

theorem evalFilter_day_eq (e : Event) (v : String) :
    evalFilter (.feq "day" (.str v)) e = decide (e.day = some v) := by
  simp [evalFilter, colVal, Scalar.val, valEqB_ovStr]

theorem evalFilter_day_btw (e : Event) (lo hi : String) :
    evalFilter (.fbetween "day" (.str lo) (.str hi)) e = dayBtw lo hi e.day := by
  cases h : e.day <;>
    simp [evalFilter, colVal, Scalar.val, dayBtw, h, ovStr, valLeB]

theorem numCol_bid (e : Event) : numCol "bid_price" e = e.bid_price := by
  cases h : e.bid_price <;> simp [numCol, colVal, h, ovRat]

theorem numCol_total (e : Event) : numCol "total_price" e = e.total_price := by
  cases h : e.total_price <;> simp [numCol, colVal, h, ovRat]

/-! ## Q1 equivalence: daily revenue from the by-minute revenue rollup -/

/-- The SUM(bid_price) of the impressions of one day, the common value both
sides of the Q1 equivalence compute. -/
def q1agg (data : List Event) (d : Option String) : Option ℚ :=
  sqlSum (((impressions data).filter (fun e => decide (e.day = d))).map Event.bid_price)

theorem q1_value (data : List Event) (d : Option String) :
    sqlSum (((rollupB data).filter (fun r => decide (r.1.2.1 = d))).map Prod.snd)
      = q1agg data d := by
  unfold rollupB
  rw [map_filter_swap, List.map_map]
  exact sqlSum_regroup (impressions data) bkey
    (fun k => decide (k.2.1 = d)) Event.bid_price

theorem q1_rewrite_char (data : List Event) (row : List Val) :
    row ∈ rewriteEval .q1Sql data ↔
      ∃ d, (∃ e ∈ impressions data, e.day = d) ∧
        row = [ovStr d, ovRat (q1agg data d)] := by
  simp only [rewriteEval, q1_value, List.mem_map]
  constructor
  · rintro ⟨d, hd, hrow⟩
    refine ⟨d, ?_, hrow.symm⟩
    rw [List.mem_dedup] at hd
    simp only [rollupB, List.map_map, List.mem_map, Function.comp] at hd
    obtain ⟨k, hk, hkd⟩ := hd
    rw [List.mem_dedup] at hk
    simp only [List.mem_map] at hk
    obtain ⟨e, he, hke⟩ := hk
    exact ⟨e, he, by simp [← hke, bkey] at hkd ⊢; exact hkd⟩
  · rintro ⟨d, ⟨e, he, hed⟩, hrow⟩
    refine ⟨d, ?_, hrow.symm⟩
    rw [List.mem_dedup]
    simp only [rollupB, List.map_map, List.mem_map, Function.comp]
    refine ⟨bkey e, ?_, by simp [bkey, hed]⟩
    rw [List.mem_dedup]
    exact List.mem_map_of_mem bkey he

theorem mem_dedup_map {α β : Type} [DecidableEq β] (f : α → β) (l : List α) (b : β) :
    b ∈ (l.map f).dedup ↔ ∃ a ∈ l, f a = b := by
  simp [List.mem_dedup]

/-- Membership characterization of the fallback result for a descriptor that
groups by one column and selects that column plus one more item. -/
theorem fallback_single_char (c : String) (it : SelItem) (fs : List FilterPred)
    (ob : List OrderItem) (data : List Event) (row : List Val) :
    row ∈ fallbackEval ⟨[.col c, it], fs, [c], ob⟩ data ↔
      ∃ v, (∃ e ∈ data.filter (fun e => fs.all (fun f => evalFilter f e)),
              colVal e c = v) ∧
        row = [v, evalSelItem [c] [v]
          ((data.filter (fun e => fs.all (fun f => evalFilter f e))).filter
            (fun e => decide (colVal e c = v))) it] := by
  have hg : ∀ v : Val,
      ((data.filter (fun e => fs.all (fun f => evalFilter f e))).filter
        (fun e => decide (([colVal e c] : List Val) = [v])))
      = ((data.filter (fun e => fs.all (fun f => evalFilter f e))).filter
        (fun e => decide (colVal e c = v))) := by
    intro v
    apply List.filter_congr
    intro x _
    simp
  simp only [fallbackEval, List.isEmpty_cons, if_false, Bool.false_eq_true]
  constructor
  · rintro hrow
    rw [List.mem_map] at hrow
    obtain ⟨k, hk, hrow⟩ := hrow
    rw [mem_dedup_map] at hk
    obtain ⟨e, he, hke⟩ := hk
    refine ⟨colVal e c, ⟨e, he, rfl⟩, ?_⟩
    rw [← hrow, ← hke]
    simp only [List.map_cons, List.map_nil]
    rw [hg (colVal e c)]
    simp [evalSelItem, keyLookup]
  · rintro ⟨v, ⟨e, he, hev⟩, hrow⟩
    rw [List.mem_map]
    refine ⟨[v], ?_, ?_⟩
    · rw [mem_dedup_map]
      exact ⟨e, he, by rw [← hev]; simp⟩
    · rw [hrow]
      simp only [List.map_cons, List.map_nil]
      rw [hg v]
      simp [evalSelItem, keyLookup]

theorem q1_fallback_char (ob : List OrderItem) (data : List Event) (row : List Val) :
    row ∈ fallbackEval (q1Desc ob) data ↔
      ∃ d, (∃ e ∈ impressions data, e.day = d) ∧
        row = [ovStr d, ovRat (q1agg data d)] := by
  have hrows : data.filter
      (fun e => [FilterPred.feq "type" (.str "impression")].all (fun f => evalFilter f e))
      = impressions data := by
    unfold impressions
    apply List.filter_congr
    intro e _
    simp [evalFilter_type]
  rw [show q1Desc ob =
    ⟨[.col "day", .agg .SUM "bid_price"],
     [.feq "type" (.str "impression")], ["day"], ob⟩ from rfl]
  rw [fallback_single_char]
  rw [hrows]
  constructor
  · rintro ⟨v, ⟨e, he, hev⟩, hrow⟩
    refine ⟨e.day, ⟨e, he, rfl⟩, ?_⟩
    rw [hrow, ← hev]
    have hcv : colVal e "day" = ovStr e.day := rfl
    rw [hcv]
    have hgrp : (impressions data).filter
        (fun x => decide (colVal x "day" = ovStr e.day))
        = (impressions data).filter (fun x => decide (x.day = e.day)) := by
      apply List.filter_congr
      intro x _
      have : (colVal x "day" = ovStr e.day) = (x.day = e.day) := by
        rw [show colVal x "day" = ovStr x.day from rfl]
        simp [ovStr_inj]
      simp [this]
    simp only [evalSelItem, hgrp]
    have hmap : ((impressions data).filter (fun x => decide (x.day = e.day))).map
        (numCol "bid_price")
        = ((impressions data).filter (fun x => decide (x.day = e.day))).map
          Event.bid_price := by
      apply List.map_congr_left
      intro x _
      exact numCol_bid x
    rw [hmap]
    rfl
  · rintro ⟨d, ⟨e, he, hed⟩, hrow⟩
    refine ⟨ovStr d, ⟨e, he, by rw [← hed]; rfl⟩, ?_⟩
    rw [hrow]
    have hgrp : (impressions data).filter
        (fun x => decide (colVal x "day" = ovStr d))
        = (impressions data).filter (fun x => decide (x.day = d)) := by
      apply List.filter_congr
      intro x _
      have : (colVal x "day" = ovStr d) = (x.day = d) := by
        rw [show colVal x "day" = ovStr x.day from rfl]
        simp [ovStr_inj]
      simp [this]
    simp only [evalSelItem, hgrp]
    have hmap : ((impressions data).filter (fun x => decide (x.day = d))).map
        (numCol "bid_price")
        = ((impressions data).filter (fun x => decide (x.day = d))).map
          Event.bid_price := by
      apply List.map_congr_left
      intro x _
      exact numCol_bid x
    rw [hmap]
    rfl

/-- The Q1 rewrite and the fallback produce the same set of rows. -/
theorem q1_equiv (ob : List OrderItem) (data : List Event) (row : List Val) :
    row ∈ rewriteEval .q1Sql data ↔ row ∈ fallbackEval (q1Desc ob) data := by
  rw [q1_rewrite_char, q1_fallback_char]

/-! ## Q5 equivalence: per-minute revenue for one day -/

/-- The SUM(bid_price) of the impressions of day s and minute m. -/
def q5agg (data : List Event) (s : String) (m : Option String) : Option ℚ :=
  sqlSum (((impressions data).filter
    (fun e => decide (e.day = some s) && decide (e.minute = m))).map Event.bid_price)

theorem q5_value (data : List Event) (s : String) (m : Option String) :
    sqlSum ((((rollupB data).filter
        (fun r => decide (r.1.2.1 = some s))).filter
        (fun r => decide (r.1.1 = m))).map Prod.snd)
      = q5agg data s m := by
  rw [List.filter_filter]
  have hc : (rollupB data).filter
      (fun r => decide (r.1.1 = m) && decide (r.1.2.1 = some s))
      = (rollupB data).filter
        (fun r => decide (r.1.2.1 = some s) && decide (r.1.1 = m)) :=
    List.filter_congr (fun x _ => Bool.and_comm _ _)
  rw [hc]
  unfold rollupB
  rw [map_filter_swap, List.map_map]
  exact sqlSum_regroup (impressions data) bkey
    (fun k => decide (k.2.1 = some s) && decide (k.1 = m)) Event.bid_price

theorem q5_rewrite_char (dv : String) (oc : String) (data : List Event) (row : List Val) :
    row ∈ rewriteEval (.q5Sql (.str dv) oc) data ↔
      ∃ m, (∃ e ∈ impressions data, e.day = some dv ∧ e.minute = m) ∧
        row = [ovStr m, ovRat (q5agg data dv m)] := by
  simp only [rewriteEval, pyStr, q5_value, List.mem_map]
  constructor
  · rintro ⟨m, hm, hrow⟩
    refine ⟨m, ?_, hrow.symm⟩
    rw [List.mem_dedup] at hm
    simp only [rollupB, map_filter_swap, List.map_map, List.mem_map,
      List.mem_filter] at hm
    obtain ⟨k, ⟨hk, hkd⟩, hkm⟩ := hm
    rw [List.mem_dedup] at hk
    simp only [List.mem_map] at hk
    obtain ⟨e, he, hke⟩ := hk
    refine ⟨e, he, ?_, ?_⟩
    · have : (bkey e).2.1 = some dv := by
        rw [hke]; exact of_decide_eq_true hkd
      simpa [bkey] using this
    · rw [← hkm, ← hke]; rfl
  · rintro ⟨m, ⟨e, he, hed, hem⟩, hrow⟩
    refine ⟨m, ?_, hrow.symm⟩
    rw [List.mem_dedup]
    simp only [rollupB, map_filter_swap, List.map_map, List.mem_map,
      List.mem_filter]
    refine ⟨bkey e, ⟨?_, ?_⟩, ?_⟩
    · rw [List.mem_dedup]
      exact List.mem_map_of_mem bkey he
    · simp [bkey, hed]
    · simpa [bkey] using hem
  
theorem q5_fallback_char (dv : String) (ob : List OrderItem) (data : List Event)
    (row : List Val) :
    row ∈ fallbackEval (q5Desc dv ob) data ↔
      ∃ m, (∃ e ∈ impressions data, e.day = some dv ∧ e.minute = m) ∧
        row = [ovStr m, ovRat (q5agg data dv m)] := by
  have hrows : data.filter
      (fun e => [FilterPred.feq "type" (.str "impression"),
                 FilterPred.feq "day" (.str dv)].all (fun f => evalFilter f e))
      = (impressions data).filter (fun e => decide (e.day = some dv)) := by
    unfold impressions
    rw [List.filter_filter]
    apply List.filter_congr
    intro e _
    simp only [List.all_cons, List.all_nil, evalFilter_type, evalFilter_day_eq,
      Bool.and_true]
    exact Bool.and_comm _ _
  rw [show q5Desc dv ob =
    ⟨[.col "minute", .agg .SUM "bid_price"],
     [.feq "type" (.str "impression"), .feq "day" (.str dv)], ["minute"], ob⟩ from rfl]
  rw [fallback_single_char]
  rw [hrows]
  have hflt : ∀ m : Option String,
      ((impressions data).filter (fun e => decide (e.day = some dv))).filter
        (fun e => decide (colVal e "minute" = ovStr m))
      = (impressions data).filter
        (fun e => decide (e.day = some dv) && decide (e.minute = m)) := by
    intro m
    rw [List.filter_filter]
    apply List.filter_congr
    intro x _
    have h2 : decide (colVal x "minute" = ovStr m) = decide (x.minute = m) := by
      rw [decide_eq_decide, show colVal x "minute" = ovStr x.minute from rfl]
      exact ovStr_inj _ _
    rw [h2]
    exact Bool.and_comm _ _
  constructor
  · rintro ⟨v, ⟨e, he, hev⟩, hrow⟩
    rw [List.mem_filter] at he
    refine ⟨e.minute, ⟨e, he.1, of_decide_eq_true he.2, rfl⟩, ?_⟩
    rw [hrow, ← hev]
    rw [show colVal e "minute" = ovStr e.minute from rfl]
    rw [hflt e.minute]
    simp only [evalSelItem]
    have hmap : ∀ l : List Event, l.map (numCol "bid_price") = l.map Event.bid_price :=
      fun l => List.map_congr_left (fun x _ => numCol_bid x)
    rw [hmap]
    rfl
  · rintro ⟨m, ⟨e, he, hed, hem⟩, hrow⟩
    refine ⟨ovStr m, ⟨e, ?_, by rw [← hem]; rfl⟩, ?_⟩
    · rw [List.mem_filter]
      exact ⟨he, decide_eq_true hed⟩
    · rw [hrow]
      rw [hflt m]
      simp only [evalSelItem]
      have hmap : ∀ l : List Event, l.map (numCol "bid_price") = l.map Event.bid_price :=
        fun l => List.map_congr_left (fun x _ => numCol_bid x)
      rw [hmap]
      rfl

/-- The Q5 rewrite and the fallback produce the same set of rows. -/
theorem q5_equiv (dv : String) (oc : String) (ob : List OrderItem)
    (data : List Event) (row : List Val) :
    row ∈ rewriteEval (.q5Sql (.str dv) oc) data ↔
      row ∈ fallbackEval (q5Desc dv ob) data := by
  rw [q5_rewrite_char, q5_fallback_char]

/-! ## Q2 equivalence: publisher revenue for one country and day range -/

/-- The WHERE condition of the Q2 rewrite on one base row: country equality
and inclusive day range. -/
def q2cond (c lo hi : String) (e : Event) : Bool :=
  decide (e.country = some c) && dayBtw lo hi e.day

/-- The SUM(bid_price) of the matching impressions of one publisher. -/
def q2agg (c lo hi : String) (data : List Event) (p : Option ℤ) : Option ℚ :=
  sqlSum (((impressions data).filter
    (fun e => q2cond c lo hi e && decide (e.publisher_id = p))).map Event.bid_price)

theorem q2_value (c lo hi : String) (data : List Event) (p : Option ℤ) :
    sqlSum ((((rollupB data).filter
        (fun r => decide (r.1.2.2.2 = some c) && dayBtw lo hi r.1.2.1)).filter
        (fun r => decide (r.1.2.2.1 = p))).map Prod.snd)
      = q2agg c lo hi data p := by
  rw [List.filter_filter]
  have hc : (rollupB data).filter
      (fun r => decide (r.1.2.2.1 = p)
        && (decide (r.1.2.2.2 = some c) && dayBtw lo hi r.1.2.1))
      = (rollupB data).filter
        (fun r => (decide (r.1.2.2.2 = some c) && dayBtw lo hi r.1.2.1)
          && decide (r.1.2.2.1 = p)) :=
    List.filter_congr (fun x _ => Bool.and_comm _ _)
  rw [hc]
  unfold rollupB
  rw [map_filter_swap, List.map_map]
  exact sqlSum_regroup (impressions data) bkey
    (fun k => (decide (k.2.2.2 = some c) && dayBtw lo hi k.2.1)
      && decide (k.2.2.1 = p)) Event.bid_price

theorem q2_rewrite_char (c lo hi : String) (data : List Event) (row : List Val) :
    row ∈ rewriteEval (.q2Sql (.str c) (.str lo) (.str hi)) data ↔
      ∃ p, (∃ e ∈ impressions data, q2cond c lo hi e = true ∧ e.publisher_id = p) ∧
        row = [ovInt p, ovRat (q2agg c lo hi data p)] := by
  simp only [rewriteEval, pyStr, q2_value, List.mem_map]
  constructor
  · rintro ⟨p, hp, hrow⟩
    refine ⟨p, ?_, hrow.symm⟩
    rw [List.mem_dedup] at hp
    simp only [rollupB, map_filter_swap, List.map_map, List.mem_map,
      List.mem_filter] at hp
    obtain ⟨k, ⟨hk, hkd⟩, hkp⟩ := hp
    rw [List.mem_dedup] at hk
    simp only [List.mem_map] at hk
    obtain ⟨e, he, hke⟩ := hk
    refine ⟨e, he, ?_, ?_⟩
    · rw [← hke] at hkd
      exact hkd
    · rw [← hkp, ← hke]; rfl
  · rintro ⟨p, ⟨e, he, hcond, hep⟩, hrow⟩
    refine ⟨p, ?_, hrow.symm⟩
    rw [List.mem_dedup]
    simp only [rollupB, map_filter_swap, List.map_map, List.mem_map,
      List.mem_filter]
    refine ⟨bkey e, ⟨?_, ?_⟩, ?_⟩
    · rw [List.mem_dedup]
      exact List.mem_map_of_mem bkey he
    · exact hcond
    · simpa [bkey] using hep

theorem bool_reorder3 (a b c : Bool) : (a && (b && (c && true))) = ((b && c) && a) := by
  cases a <;> cases b <;> cases c <;> rfl

theorem q2_fallback_char (c lo hi : String) (ob : List OrderItem)
    (data : List Event) (row : List Val) :
    row ∈ fallbackEval (q2Desc c lo hi ob) data ↔
      ∃ p, (∃ e ∈ impressions data, q2cond c lo hi e = true ∧ e.publisher_id = p) ∧
        row = [ovInt p, ovRat (q2agg c lo hi data p)] := by
  have hrows : data.filter
      (fun e => [FilterPred.feq "type" (.str "impression"),
                 FilterPred.feq "country" (.str c),
                 FilterPred.fbetween "day" (.str lo) (.str hi)].all
          (fun f => evalFilter f e))
      = (impressions data).filter (q2cond c lo hi) := by
    unfold impressions
    rw [List.filter_filter]
    apply List.filter_congr
    intro e _
    simp only [List.all_cons, List.all_nil, evalFilter_type, evalFilter_country,
      evalFilter_day_btw, q2cond]
    exact bool_reorder3 _ _ _
  rw [show q2Desc c lo hi ob =
    ⟨[.col "publisher_id", .agg .SUM "bid_price"],
     [.feq "type" (.str "impression"), .feq "country" (.str c),
      .fbetween "day" (.str lo) (.str hi)], ["publisher_id"], ob⟩ from rfl]
  rw [fallback_single_char]
  rw [hrows]
  have hflt : ∀ p : Option ℤ,
      ((impressions data).filter (q2cond c lo hi)).filter
        (fun e => decide (colVal e "publisher_id" = ovInt p))
      = (impressions data).filter
        (fun e => q2cond c lo hi e && decide (e.publisher_id = p)) := by
    intro p
    rw [List.filter_filter]
    apply List.filter_congr
    intro x _
    have h2 : decide (colVal x "publisher_id" = ovInt p)
        = decide (x.publisher_id = p) := by
      rw [decide_eq_decide, show colVal x "publisher_id" = ovInt x.publisher_id from rfl]
      exact ovInt_inj _ _
    rw [h2]
    exact Bool.and_comm _ _
  constructor
  · rintro ⟨v, ⟨e, he, hev⟩, hrow⟩
    rw [List.mem_filter] at he
    refine ⟨e.publisher_id, ⟨e, he.1, he.2, rfl⟩, ?_⟩
    rw [hrow, ← hev]
    rw [show colVal e "publisher_id" = ovInt e.publisher_id from rfl]
    rw [hflt e.publisher_id]
    simp only [evalSelItem]
    have hmap : ∀ l : List Event, l.map (numCol "bid_price") = l.map Event.bid_price :=
      fun l => List.map_congr_left (fun x _ => numCol_bid x)
    rw [hmap]
    rfl
  · rintro ⟨p, ⟨e, he, hcond, hep⟩, hrow⟩
    refine ⟨ovInt p, ⟨e, ?_, by rw [← hep]; rfl⟩, ?_⟩
    · rw [List.mem_filter]
      exact ⟨he, hcond⟩
    · rw [hrow]
      rw [hflt p]
      simp only [evalSelItem]
      have hmap : ∀ l : List Event, l.map (numCol "bid_price") = l.map Event.bid_price :=
        fun l => List.map_congr_left (fun x _ => numCol_bid x)
      rw [hmap]
      rfl

/-- The Q2 rewrite and the fallback produce the same set of rows. -/
theorem q2_equiv (c lo hi : String) (ob : List OrderItem)
    (data : List Event) (row : List Val) :
    row ∈ rewriteEval (.q2Sql (.str c) (.str lo) (.str hi)) data ↔
      row ∈ fallbackEval (q2Desc c lo hi ob) data := by
  rw [q2_rewrite_char, q2_fallback_char]

/-! ## Q3 equivalence: average purchase value by country -/

/-- The SUM(total_price) of the purchases of one country. -/
def q3sum (data : List Event) (c : Option String) : Option ℚ :=
  sqlSum (((purchases data).filter
    (fun e => decide (e.country = c))).map Event.total_price)

/-- The COUNT(total_price) of the purchases of one country. -/
def q3cnt (data : List Event) (c : Option String) : ℕ :=
  ((((purchases data).filter
    (fun e => decide (e.country = c))).map Event.total_price)).reduceOption.length

/-- AVG coincides with the stored-sum / stored-count reconstruction. -/
theorem avg_eq_div (xs : List (Option ℚ)) :
    divVal (sqlSum xs) xs.reduceOption.length = avgVal xs := by
  unfold divVal avgVal
  cases h : sqlSum xs with
  | none => rfl
  | some s =>
    have hne : ¬xs.reduceOption = [] := by
      intro hnil
      rw [sqlSum, hnil] at h
      simp at h
    have hlen : ¬xs.reduceOption.length = 0 := by
      simpa [List.length_eq_zero] using hne
    simp [hlen]

theorem q3_rewrite_char (oc : String) (data : List Event) (row : List Val) :
    row ∈ rewriteEval (.q3Sql oc) data ↔
      ∃ c, (∃ e ∈ purchases data, e.country = c) ∧
        row = [ovStr c, divVal (q3sum data c) (q3cnt data c)] := by
  simp only [rewriteEval, rollupC, List.map_map, List.mem_map, mem_dedup_map]
  constructor
  · rintro ⟨c, ⟨e, he, hec⟩, hrow⟩
    exact ⟨c, ⟨e, he, hec⟩, hrow.symm⟩
  · rintro ⟨c, ⟨e, he, hec⟩, hrow⟩
    exact ⟨c, ⟨e, he, hec⟩, hrow.symm⟩

theorem q3_fallback_char (ob : List OrderItem) (data : List Event) (row : List Val) :
    row ∈ fallbackEval (q3Desc ob) data ↔
      ∃ c, (∃ e ∈ purchases data, e.country = c) ∧
        row = [ovStr c, divVal (q3sum data c) (q3cnt data c)] := by
  have hrows : data.filter
      (fun e => [FilterPred.feq "type" (.str "purchase")].all (fun f => evalFilter f e))
      = purchases data := by
    unfold purchases
    apply List.filter_congr
    intro e _
    simp [evalFilter_type]
  rw [show q3Desc ob =
    ⟨[.col "country", .agg .AVG "total_price"],
     [.feq "type" (.str "purchase")], ["country"], ob⟩ from rfl]
  rw [fallback_single_char]
  rw [hrows]
  have hflt : ∀ c : Option String,
      (purchases data).filter (fun e => decide (colVal e "country" = ovStr c))
      = (purchases data).filter (fun e => decide (e.country = c)) := by
    intro c
    apply List.filter_congr
    intro x _
    rw [decide_eq_decide, show colVal x "country" = ovStr x.country from rfl]
    exact ovStr_inj _ _
  have hmap : ∀ l : List Event, l.map (numCol "total_price") = l.map Event.total_price :=
    fun l => List.map_congr_left (fun x _ => numCol_total x)
  constructor
  · rintro ⟨v, ⟨e, he, hev⟩, hrow⟩
    refine ⟨e.country, ⟨e, he, rfl⟩, ?_⟩
    rw [hrow, ← hev]
    rw [show colVal e "country" = ovStr e.country from rfl]
    rw [hflt e.country]
    simp only [evalSelItem, hmap]
    rw [← avg_eq_div]
    rfl
  · rintro ⟨c, ⟨e, he, hec⟩, hrow⟩
    refine ⟨ovStr c, ⟨e, he, by rw [← hec]; rfl⟩, ?_⟩
    rw [hrow]
    rw [hflt c]
    simp only [evalSelItem, hmap]
    rw [← avg_eq_div]
    rfl

/-- The Q3 rewrite and the fallback produce the same set of rows. -/
theorem q3_equiv (oc : String) (ob : List OrderItem)
    (data : List Event) (row : List Val) :
    row ∈ rewriteEval (.q3Sql oc) data ↔ row ∈ fallbackEval (q3Desc ob) data := by
  rw [q3_rewrite_char, q3_fallback_char]

/-! ## Q4 equivalence: event counts by advertiser and type -/

theorem keyLookup_map (cols : List String) (f : String → Val) (c : String)
    (h : c ∈ cols) : keyLookup cols (cols.map f) c = f c := by
  induction cols with
  | nil => cases h
  | cons c0 cs ih =>
    simp only [List.map_cons, keyLookup]
    by_cases hc : c0 = c
    · subst hc
      simp
    · simp only [hc, if_false]
      exact ih (by
        rcases List.mem_cons.mp h with h1 | h1
        · exact absurd h1.symm hc
        · exact h1)

theorem map_eq_map_iff_mem {α β : Type} (l : List α) (f g : α → β) :
    l.map f = l.map g ↔ ∀ a ∈ l, f a = g a := by
  induction l with
  | nil => simp
  | cons a t ih => simp [ih]

/-- COUNT(*) of one advertiser/type pair, the common value of Q4. -/
def q4cnt (data : List Event) (k : Option ℤ × Option String) : ℕ :=
  (data.filter (fun e => decide (akey e = k))).length

theorem q4_rewrite_char (oc : String) (data : List Event) (row : List Val) :
    row ∈ rewriteEval (.q4Sql oc) data ↔
      ∃ k, (∃ e ∈ data, akey e = k) ∧
        row = [ovInt k.1, ovStr k.2, Val.vint (q4cnt data k)] := by
  simp only [rewriteEval, rollupA, List.map_map, List.mem_map, mem_dedup_map, q4cnt]
  constructor
  · rintro ⟨k, ⟨e, he, hek⟩, hrow⟩
    exact ⟨k, ⟨e, he, hek⟩, hrow.symm⟩
  · rintro ⟨k, ⟨e, he, hek⟩, hrow⟩
    exact ⟨k, ⟨e, he, hek⟩, hrow.symm⟩

theorem q4_fallback_char (g : List String) (ob : List OrderItem)
    (hg : ∀ s, s ∈ g ↔ s ∈ ["advertiser_id", "type"])
    (data : List Event) (row : List Val) :
    row ∈ fallbackEval (q4Desc g ob) data ↔
      ∃ k, (∃ e ∈ data, akey e = k) ∧
        row = [ovInt k.1, ovStr k.2, Val.vint (q4cnt data k)] := by
  have hadv : "advertiser_id" ∈ g := (hg "advertiser_id").mpr (by simp)
  have htyp : "type" ∈ g := (hg "type").mpr (by simp)
  have hne : ¬g.isEmpty = true := by
    cases g with
    | nil => cases hadv
    | cons a t => simp [List.isEmpty]
  have hrows : data.filter
      (fun e => ([] : List FilterPred).all (fun f => evalFilter f e)) = data := by
    simp
  have hgrp : ∀ e : Event, data.filter
      (fun x => decide (List.map (colVal x) g = List.map (colVal e) g))
      = data.filter (fun x => decide (akey x = akey e)) := by
    intro e
    apply List.filter_congr
    intro x _
    rw [decide_eq_decide]
    constructor
    · intro hmapeq
      have hall : ∀ c ∈ g, colVal x c = colVal e c :=
        (map_eq_map_iff_mem g (colVal x) (colVal e)).mp hmapeq
      have h1 := hall "advertiser_id" hadv
      have h2 := hall "type" htyp
      rw [show colVal x "advertiser_id" = ovInt x.advertiser_id from rfl,
        show colVal e "advertiser_id" = ovInt e.advertiser_id from rfl,
        ovInt_inj] at h1
      rw [show colVal x "type" = ovStr x.type from rfl,
        show colVal e "type" = ovStr e.type from rfl, ovStr_inj] at h2
      simp [akey, h1, h2]
    · intro hk
      apply (map_eq_map_iff_mem g (colVal x) (colVal e)).mpr
      intro c hc
      have hx : x.advertiser_id = e.advertiser_id ∧ x.type = e.type := by
        simpa [akey, Prod.ext_iff] using hk
      rcases List.mem_cons.mp ((hg c).mp hc) with h | h
      · subst h
        rw [show colVal x "advertiser_id" = ovInt x.advertiser_id from rfl,
          show colVal e "advertiser_id" = ovInt e.advertiser_id from rfl, hx.1]
      · have h2 : c = "type" := List.mem_singleton.mp h
        subst h2
        rw [show colVal x "type" = ovStr x.type from rfl,
          show colVal e "type" = ovStr e.type from rfl, hx.2]
  simp only [fallbackEval, q4Desc, hrows, hne, if_false, Bool.false_eq_true,
    List.mem_map, mem_dedup_map]
  constructor
  · rintro ⟨k, ⟨e, he, hek⟩, hrow⟩
    refine ⟨akey e, ⟨e, he, rfl⟩, ?_⟩
    rw [← hrow, ← hek]
    simp only [List.map_cons, List.map_nil, evalSelItem]
    rw [keyLookup_map g (colVal e) "advertiser_id" hadv,
      keyLookup_map g (colVal e) "type" htyp]
    rw [hgrp e]
    rfl
  · rintro ⟨k, ⟨e, he, hek⟩, hrow⟩
    refine ⟨List.map (colVal e) g, ⟨e, he, rfl⟩, ?_⟩
    rw [hrow, ← hek]
    simp only [List.map_cons, List.map_nil, evalSelItem]
    rw [keyLookup_map g (colVal e) "advertiser_id" hadv,
      keyLookup_map g (colVal e) "type" htyp]
    rw [hgrp e]
    rfl

/-- The Q4 rewrite and the fallback produce the same set of rows. -/
theorem q4_equiv (g : List String) (oc : String) (ob : List OrderItem)
    (hg : ∀ s, s ∈ g ↔ s ∈ ["advertiser_id", "type"])
    (data : List Event) (row : List Val) :
    row ∈ rewriteEval (.q4Sql oc) data ↔ row ∈ fallbackEval (q4Desc g ob) data := by
  rw [q4_rewrite_char, q4_fallback_char g ob hg]

/-! ## Matching the canonical descriptor families -/

@[simp] theorem exbind_ok {α β : Type} (a : α) (f : α → Except String β) :
    (Except.ok a >>= f) = f a := rfl

@[simp] theorem exbind_err {α β : Type} (e : String) (f : α → Except String β) :
    ((Except.error e : Except String α) >>= f) = .error e := rfl

@[simp] theorem expure_bind {α β : Type} (a : α) (f : α → Except String β) :
    ((pure a : Except String α) >>= f) = f a := rfl

theorem try_q1_toPy (ob : List OrderItem) :
    try_q1_pattern (Descriptor.toPy (q1Desc ob)) = .ok (some .q1Sql) := rfl

theorem try_q1_toPy_q2 (c lo hi : String) (ob : List OrderItem) :
    try_q1_pattern (Descriptor.toPy (q2Desc c lo hi ob)) = .ok Option.none := rfl

theorem try_q1_toPy_q3 (ob : List OrderItem) :
    try_q1_pattern (Descriptor.toPy (q3Desc ob)) = .ok Option.none := rfl

theorem try_q2_toPy_q3 (ob : List OrderItem) :
    try_q2_pattern (Descriptor.toPy (q3Desc ob)) = .ok Option.none := rfl

theorem try_q1_toPy_q5 (dv : String) (ob : List OrderItem) :
    try_q1_pattern (Descriptor.toPy (q5Desc dv ob)) = .ok Option.none := rfl

theorem try_q2_toPy_q5 (dv : String) (ob : List OrderItem) :
    try_q2_pattern (Descriptor.toPy (q5Desc dv ob)) = .ok Option.none := rfl

theorem try_q3_toPy_q5 (dv : String) (ob : List OrderItem) :
    try_q3_pattern (Descriptor.toPy (q5Desc dv ob)) = .ok Option.none := rfl

theorem try_q4_toPy_q5 (dv : String) (ob : List OrderItem) :
    try_q4_pattern (Descriptor.toPy (q5Desc dv ob)) = .ok Option.none := rfl

/-- The embedded ORDER BY builder on a typed order_by list renders exactly the
typed ORDER BY clause. -/
theorem buildOrder_toPy (cm : Py → String) (cmT : String → String)
    (hcm : ∀ s : String, cm (.str s) = cmT s) (ob : List OrderItem) :
    buildOrderClause cm (.list (ob.map OrderItem.toPy))
      = .ok (renderOrder cmT ob) := by
  have hmapM : ∀ l : List OrderItem,
      (l.map OrderItem.toPy).mapM (fun o => do
        let col ← pyGetAttr o "col" .none
        let dirp ← pyGetAttr o "dir" (.str "asc")
        let dir ←
          match dirp with
          | .str s => pure (upperAscii s)
          | _ => (.error "AttributeError" : Except String String)
        pure (cm col ++ " " ++ dir))
      = .ok (l.map (fun o => cmT o.col ++ " " ++ upperAscii o.dir)) := by
    intro l
    induction l with
    | nil => rfl
    | cons a t ih =>
      rw [List.map_cons, List.mapM_cons, ih]
      show Except.ok ((cm (.str a.col) ++ " " ++ upperAscii a.dir)
        :: t.map (fun o => cmT o.col ++ " " ++ upperAscii o.dir)) = _
      rw [hcm]
      rfl
  cases ob with
  | nil => rfl
  | cons o t =>
    show (((o :: t).map OrderItem.toPy).mapM _ >>=
      fun parts => (pure ("ORDER BY " ++ String.intercalate ", " parts)
        : Except String String)) = _
    rw [hmapM (o :: t)]
    rfl

theorem getattr_toPy_select (d : Descriptor) :
    pyGetAttr d.toPy "select" (.list [])
      = .ok (.list (d.select.map SelItem.toPy)) := rfl

theorem getattr_toPy_where (d : Descriptor) :
    pyGetAttr d.toPy "where" (.list [])
      = .ok (.list (d.whereFs.map FilterPred.toPy)) := rfl

theorem getattr_toPy_group (d : Descriptor) :
    pyGetAttr d.toPy "group_by" (.list [])
      = .ok (.list (d.group_by.map Py.str)) := rfl

theorem getattr_toPy_order (d : Descriptor) :
    pyGetAttr d.toPy "order_by" (.list [])
      = .ok (.list (d.order_by.map OrderItem.toPy)) := rfl

/-- pyEqStr on an embedded string is plain string equality. -/
theorem pyEqStr_str (a b : String) : pyEqStr (.str a) b = decide (a = b) := rfl

/-- The embedded comparison of a string list descriptor field against a
string-list literal is plain list equality. -/
theorem pyEqStrList_map (g ss : List String) :
    pyEqStrList (.list (g.map Py.str)) ss = decide (g = ss) := by
  induction g generalizing ss with
  | nil =>
    cases ss <;> simp [pyEqStrList]
  | cons a t ih =>
    cases ss with
    | nil => simp [pyEqStrList]
    | cons b u =>
      have h := ih u
      simp only [pyEqStrList, List.map_cons, List.zip_cons_cons, List.all_cons,
        List.length_cons, List.length_map] at h ⊢
      rw [pyEqStr_str]
      rw [show decide (t.length + 1 = u.length + 1) = decide (t.length = u.length)
        by simp]
      rw [show decide ((a :: t : List String) = b :: u)
          = (decide (a = b) && decide (t = u)) by simp]
      rw [← h]
      exact Bool.and_left_comm _ _ _

theorem q3ColMap_toPy (s : String) : q3ColMap (.str s) = q3ColMapT s := by
  simp [q3ColMap, q3ColMapT, pyEqStr, pyStr]

theorem q4ColMap_toPy (s : String) : q4ColMap (.str s) = q4ColMapT s := by
  simp [q4ColMap, q4ColMapT, pyEqStr, pyStr]

theorem q5ColMap_toPy (s : String) : q5ColMap (.str s) = s := rfl

theorem try_q3_toPy (ob : List OrderItem) :
    try_q3_pattern (Descriptor.toPy (q3Desc ob))
      = .ok (some (.q3Sql (renderOrder q3ColMapT ob))) := by
  show (buildOrderClause q3ColMap (.list (ob.map OrderItem.toPy)) >>=
    fun oc => (pure (some (.q3Sql oc)) : Except String (Option RewrittenQuery))) = _
  rw [buildOrder_toPy q3ColMap q3ColMapT q3ColMap_toPy ob]
  rfl

theorem try_q2_toPy (c lo hi : String) (ob : List OrderItem) (hc : c ≠ "") :
    try_q2_pattern (Descriptor.toPy (q2Desc c lo hi ob))
      = .ok (some (.q2Sql (.str c) (.str lo) (.str hi))) := by
  show (if (!(pyTruthy (.str c)) || !(pyTruthy (.list [.str lo, .str hi]))) = true
      then (pure Option.none : Except String (Option RewrittenQuery))
      else pyUnpack2 (.list [.str lo, .str hi]) >>= fun b =>
        pure (some (.q2Sql (.str c) b.1 b.2))) = _
  have h1 : pyTruthy (.str c) = true := by simp [pyTruthy, hc]
  rw [h1]
  rfl

theorem try_q5_toPy (dv : String) (ob : List OrderItem) (hd : dv ≠ "") :
    try_q5_pattern (Descriptor.toPy (q5Desc dv ob))
      = .ok (some (.q5Sql (.str dv) (renderOrder id ob))) := by
  show (if (!(pyTruthy (.str dv))) = true
      then (pure Option.none : Except String (Option RewrittenQuery))
      else buildOrderClause q5ColMap (.list (ob.map OrderItem.toPy)) >>= fun oc =>
        pure (some (.q5Sql (.str dv) oc))) = _
  have h1 : pyTruthy (.str dv) = true := by simp [pyTruthy, hd]
  rw [h1]
  simp only [Bool.not_true, if_false, Bool.false_eq_true, ite_false]
  rw [buildOrder_toPy q5ColMap id q5ColMap_toPy ob]
  rfl

theorem pySetElems_map_str (g : List String) :
    pySetElems (.list (g.map Py.str)) = .ok (g.map Py.str) := by
  show (if (g.map Py.str).all pyHashable = true
    then Except.ok (g.map Py.str) else Except.error "TypeError") = _
  rw [if_pos]
  rw [List.all_eq_true]
  intro p hp
  obtain ⟨s, _, rfl⟩ := List.mem_map.mp hp
  rfl

theorem setEqAdvType_of_mem (g : List String)
    (hg : ∀ s, s ∈ g ↔ s ∈ ["advertiser_id", "type"]) :
    setEqAdvType (g.map Py.str) = true := by
  unfold setEqAdvType
  have hadv : "advertiser_id" ∈ g := (hg "advertiser_id").mpr (by simp)
  have htyp : "type" ∈ g := (hg "type").mpr (by simp)
  simp only [Bool.and_eq_true, List.all_eq_true, List.any_eq_true]
  refine ⟨⟨?_, ?_⟩, ?_⟩
  · intro p hp
    obtain ⟨s, hs, rfl⟩ := List.mem_map.mp hp
    rcases List.mem_cons.mp ((hg s).mp hs) with h | h
    · subst h
      simp [pyEqStr_str]
    · have h2 : s = "type" := List.mem_singleton.mp h
      subst h2
      simp [pyEqStr_str]
  · exact ⟨Py.str "advertiser_id", List.mem_map_of_mem Py.str hadv, by simp [pyEqStr_str]⟩
  · exact ⟨Py.str "type", List.mem_map_of_mem Py.str htyp, by simp [pyEqStr_str]⟩

theorem try_q4_toPy (g : List String) (ob : List OrderItem)
    (hg : ∀ s, s ∈ g ↔ s ∈ ["advertiser_id", "type"]) :
    try_q4_pattern (Descriptor.toPy (q4Desc g ob))
      = .ok (some (.q4Sql (renderOrder q4ColMapT ob))) := by
  show (pySetElems (.list (g.map Py.str)) >>= fun gset =>
    if (!(setEqAdvType gset)) = true
      then (pure Option.none : Except String (Option RewrittenQuery))
      else buildOrderClause q4ColMap (.list (ob.map OrderItem.toPy)) >>= fun oc =>
        pure (some (.q4Sql oc))) = _
  rw [pySetElems_map_str g]
  simp only [exbind_ok]
  rw [setEqAdvType_of_mem g hg]
  simp only [Bool.not_true, if_false, Bool.false_eq_true, ite_false]
  rw [buildOrder_toPy q4ColMap q4ColMapT q4ColMap_toPy ob]
  rfl

/-- The grouping list of a matching Q4 descriptor has at least two entries. -/
theorem q4_group_ne (g : List String) (ss : List String)
    (hg : ∀ s, s ∈ g ↔ s ∈ ["advertiser_id", "type"]) (hlen : ss.length = 1) :
    g ≠ ss := by
  intro heq
  subst heq
  have hadv : "advertiser_id" ∈ g := (hg "advertiser_id").mpr (by simp)
  have htyp : "type" ∈ g := (hg "type").mpr (by simp)
  cases g with
  | nil => cases hadv
  | cons a t =>
    cases t with
    | nil =>
      have h1 : "advertiser_id" = a := List.mem_singleton.mp hadv
      have h2 : "type" = a := List.mem_singleton.mp htyp
      rw [← h1] at h2
      exact absurd h2 (by decide)
    | cons b u => simp at hlen

theorem try_q1_toPy_q4 (g : List String) (ob : List OrderItem)
    (hg : ∀ s, s ∈ g ↔ s ∈ ["advertiser_id", "type"]) :
    try_q1_pattern (Descriptor.toPy (q4Desc g ob)) = .ok Option.none := by
  show (if (!(pyEqStrList (.list (g.map Py.str)) ["day"])) = true
      then (pure Option.none : Except String (Option RewrittenQuery)) else _) = _
  rw [pyEqStrList_map]
  rw [decide_eq_false (q4_group_ne g ["day"] hg rfl)]
  rfl

theorem try_q2_toPy_q4 (g : List String) (ob : List OrderItem)
    (hg : ∀ s, s ∈ g ↔ s ∈ ["advertiser_id", "type"]) :
    try_q2_pattern (Descriptor.toPy (q4Desc g ob)) = .ok Option.none := by
  show (if (!(pyEqStrList (.list (g.map Py.str)) ["publisher_id"])) = true
      then (pure Option.none : Except String (Option RewrittenQuery)) else _) = _
  rw [pyEqStrList_map]
  rw [decide_eq_false (q4_group_ne g ["publisher_id"] hg rfl)]
  rfl

theorem try_q3_toPy_q4 (g : List String) (ob : List OrderItem)
    (hg : ∀ s, s ∈ g ↔ s ∈ ["advertiser_id", "type"]) :
    try_q3_pattern (Descriptor.toPy (q4Desc g ob)) = .ok Option.none := by
  show (if (!(pyEqStrList (.list (g.map Py.str)) ["country"])) = true
      then (pure Option.none : Except String (Option RewrittenQuery)) else _) = _
  rw [pyEqStrList_map]
  rw [decide_eq_false (q4_group_ne g ["country"] hg rfl)]
  rfl

/-! ## Router dispatch -/

theorem route_of_q1 (q : Py) (r : RewrittenQuery)
    (h : try_q1_pattern q = .ok (some r)) : route_query q = .ok (some r) := by
  simp [route_query, h]
  rfl

theorem route_of_q2 (q : Py) (r : RewrittenQuery)
    (h1 : try_q1_pattern q = .ok Option.none)
    (h2 : try_q2_pattern q = .ok (some r)) : route_query q = .ok (some r) := by
  simp [route_query, h1, h2]
  rfl

theorem route_of_q3 (q : Py) (r : RewrittenQuery)
    (h1 : try_q1_pattern q = .ok Option.none)
    (h2 : try_q2_pattern q = .ok Option.none)
    (h3 : try_q3_pattern q = .ok (some r)) : route_query q = .ok (some r) := by
  simp [route_query, h1, h2, h3]
  rfl

theorem route_of_q4 (q : Py) (r : RewrittenQuery)
    (h1 : try_q1_pattern q = .ok Option.none)
    (h2 : try_q2_pattern q = .ok Option.none)
    (h3 : try_q3_pattern q = .ok Option.none)
    (h4 : try_q4_pattern q = .ok (some r)) : route_query q = .ok (some r) := by
  simp [route_query, h1, h2, h3, h4]
  rfl

theorem route_of_q5 (q : Py) (r : RewrittenQuery)
    (h1 : try_q1_pattern q = .ok Option.none)
    (h2 : try_q2_pattern q = .ok Option.none)
    (h3 : try_q3_pattern q = .ok Option.none)
    (h4 : try_q4_pattern q = .ok Option.none)
    (h5 : try_q5_pattern q = .ok (some r)) : route_query q = .ok (some r) := by
  simp [route_query, h1, h2, h3, h4, h5]
  rfl

theorem route_of_none (q : Py)
    (h1 : try_q1_pattern q = .ok Option.none)
    (h2 : try_q2_pattern q = .ok Option.none)
    (h3 : try_q3_pattern q = .ok Option.none)
    (h4 : try_q4_pattern q = .ok Option.none)
    (h5 : try_q5_pattern q = .ok Option.none) :
    route_query q = .ok Option.none := by
  simp [route_query, h1, h2, h3, h4, h5]
  rfl

/-! ## Claim C1: rewrite / fallback equivalence -/

/-- A Q4-shaped descriptor whose select lists type before advertiser_id; the
rule still matches it (its select checks are membership tests), but the
emitted rollup query has the fixed column order advertiser_id, type. -/
def c1CexDesc : Descriptor :=
  ⟨[.col "type", .col "advertiser_id", .agg .COUNT "*"],
   [], ["advertiser_id", "type"], []⟩

/-- One impression of advertiser 1. -/
def c1CexData : List Event :=
  [{ advertiser_id := some 1, type := some "impression" }]

/-- C1, counterexample.  The claim quantifies over every matched descriptor;
for the select-permuted Q4 descriptor above, the rewritten query's result
rows carry (advertiser_id, type, count) while the Fallback Assembler emits
the descriptor's select order (type, advertiser_id, count), so the two result
sets differ on a one-row dataset (and not merely within the 1e-6 tolerance:
the rows are distinct as tuples). -/
theorem C1_counterexample :
    route_query c1CexDesc.toPy = .ok (some (.q4Sql "")) ∧
    [Val.vint 1, .vstr "impression", .vint 1] ∈ rewriteEval (.q4Sql "") c1CexData ∧
    [Val.vint 1, .vstr "impression", .vint 1] ∉ fallbackEval c1CexDesc c1CexData := by
  refine ⟨rfl, ?_, ?_⟩
  · decide
  · decide

/-- C1, amended.  For every canonical descriptor family instance (select in
the rule's canonical order; exactly the recognized filters, one each, with
string values; any order_by), the router matches it and the rewritten rollup
query returns the same set of rows as the Fallback Assembler's query over the
base dataset, for every base dataset, in exact arithmetic. -/
theorem C1_rewrite_fallback_equiv :
    (∀ (ob : List OrderItem) (data : List Event),
      route_query (Descriptor.toPy (q1Desc ob)) = .ok (some .q1Sql) ∧
      ∀ row, row ∈ rewriteEval .q1Sql data ↔ row ∈ fallbackEval (q1Desc ob) data) ∧
    (∀ (c lo hi : String) (ob : List OrderItem) (data : List Event), c ≠ "" →
      route_query (Descriptor.toPy (q2Desc c lo hi ob))
        = .ok (some (.q2Sql (.str c) (.str lo) (.str hi))) ∧
      ∀ row, row ∈ rewriteEval (.q2Sql (.str c) (.str lo) (.str hi)) data
        ↔ row ∈ fallbackEval (q2Desc c lo hi ob) data) ∧
    (∀ (ob : List OrderItem) (data : List Event),
      route_query (Descriptor.toPy (q3Desc ob))
        = .ok (some (.q3Sql (renderOrder q3ColMapT ob))) ∧
      ∀ row, row ∈ rewriteEval (.q3Sql (renderOrder q3ColMapT ob)) data
        ↔ row ∈ fallbackEval (q3Desc ob) data) ∧
    (∀ (g : List String) (ob : List OrderItem) (data : List Event),
      (∀ s, s ∈ g ↔ s ∈ ["advertiser_id", "type"]) →
      route_query (Descriptor.toPy (q4Desc g ob))
        = .ok (some (.q4Sql (renderOrder q4ColMapT ob))) ∧
      ∀ row, row ∈ rewriteEval (.q4Sql (renderOrder q4ColMapT ob)) data
        ↔ row ∈ fallbackEval (q4Desc g ob) data) ∧
    (∀ (dv : String) (ob : List OrderItem) (data : List Event), dv ≠ "" →
      route_query (Descriptor.toPy (q5Desc dv ob))
        = .ok (some (.q5Sql (.str dv) (renderOrder id ob))) ∧
      ∀ row, row ∈ rewriteEval (.q5Sql (.str dv) (renderOrder id ob)) data
        ↔ row ∈ fallbackEval (q5Desc dv ob) data) := by
  refine ⟨?_, ?_, ?_, ?_, ?_⟩
  · intro ob data
    exact ⟨route_of_q1 _ _ (try_q1_toPy ob), fun row => q1_equiv ob data row⟩
  · intro c lo hi ob data hc
    exact ⟨route_of_q2 _ _ (try_q1_toPy_q2 c lo hi ob) (try_q2_toPy c lo hi ob hc),
      fun row => q2_equiv c lo hi ob data row⟩
  · intro ob data
    exact ⟨route_of_q3 _ _ (try_q1_toPy_q3 ob) (try_q2_toPy_q3 ob) (try_q3_toPy ob),
      fun row => q3_equiv (renderOrder q3ColMapT ob) ob data row⟩
  · intro g ob data hg
    exact ⟨route_of_q4 _ _ (try_q1_toPy_q4 g ob hg) (try_q2_toPy_q4 g ob hg)
        (try_q3_toPy_q4 g ob hg) (try_q4_toPy g ob hg),
      fun row => q4_equiv g (renderOrder q4ColMapT ob) ob hg data row⟩
  · intro dv ob data hd
    exact ⟨route_of_q5 _ _ (try_q1_toPy_q5 dv ob) (try_q2_toPy_q5 dv ob)
        (try_q3_toPy_q5 dv ob) (try_q4_toPy_q5 dv ob) (try_q5_toPy dv ob hd),
      fun row => q5_equiv dv (renderOrder id ob) ob data row⟩

/-- C1 witness: the amended equivalence applied to the canonical Q2 instance
(country JP, days 2024-10-20 .. 2024-10-23) on a two-row dataset. -/
theorem C1_rewrite_fallback_equiv_witness :
    ("JP" : String) ≠ "" ∧
    route_query (Descriptor.toPy (q2Desc "JP" "2024-10-20" "2024-10-23" []))
      = .ok (some (.q2Sql (.str "JP") (.str "2024-10-20") (.str "2024-10-23"))) ∧
    ([Val.vint 7, Val.vrat 2]
      ∈ rewriteEval (.q2Sql (.str "JP") (.str "2024-10-20") (.str "2024-10-23"))
        [{ day := some "2024-10-21", minute := some "2024-10-21 00:01",
           publisher_id := some 7, country := some "JP",
           type := some "impression", bid_price := some 2 }]
      ↔ [Val.vint 7, Val.vrat 2]
        ∈ fallbackEval (q2Desc "JP" "2024-10-20" "2024-10-23" [])
          [{ day := some "2024-10-21", minute := some "2024-10-21 00:01",
             publisher_id := some 7, country := some "JP",
             type := some "impression", bid_price := some 2 }]) := by
  have h := C1_rewrite_fallback_equiv.2.1 "JP" "2024-10-20" "2024-10-23" []
    [{ day := some "2024-10-21", minute := some "2024-10-21 00:01",
       publisher_id := some 7, country := some "JP",
       type := some "impression", bid_price := some 2 }] (by decide)
  exact ⟨by decide, h.1, h.2 [Val.vint 7, Val.vrat 2]⟩

/-! ## Claim C7: AVG reconstruction from stored sum and count -/

/-- Three JP purchases of 120, 80 and 100, plus one impression. -/
def c7Data : List Event :=
  [{ country := some "JP", type := some "purchase", total_price := some 120 },
   { country := some "JP", type := some "purchase", total_price := some 80 },
   { country := some "JP", type := some "purchase", total_price := some 100 },
   { country := some "JP", type := some "impression", bid_price := some 1 }]

/-- C7: the Q3 rewrite computes AVG as stored sum divided by stored count
(first clause: for every dataset and country this division equals the AVG
computed directly over the raw purchase rows of that country), and on the
concrete purchase-summary row (JP, 300.0, 3) it yields exactly 100.0, equal
to the Fallback Assembler's direct AVG(total_price) for JP. -/
theorem C7_avg_reconstruction :
    (∀ (data : List Event) (c : Option String),
      divVal (q3sum data c) (q3cnt data c)
        = avgVal (((purchases data).filter
            (fun e => decide (e.country = c))).map Event.total_price)) ∧
    rollupC c7Data = [(some "JP", some 300, 3)] ∧
    rewriteEval (.q3Sql "") c7Data = [[.vstr "JP", .vrat 100]] ∧
    fallbackEval (q3Desc []) c7Data = [[.vstr "JP", .vrat 100]] := by
  have h300 : (120 + (80 + (100 + 0)) : ℚ) = 300 := by norm_num
  have h100 : ((120 + (80 + (100 + 0)) : ℚ) / ((3 : ℕ) : ℚ)) = 100 := by norm_num
  refine ⟨?_, ?_, ?_, ?_⟩
  · intro data c
    exact avg_eq_div _
  · calc rollupC c7Data
        = [(some "JP", some (120 + (80 + (100 + 0)) : ℚ), 3)] := rfl
      _ = [(some "JP", some 300, 3)] := by rw [h300]
  · calc rewriteEval (.q3Sql "") c7Data
        = [[.vstr "JP", .vrat ((120 + (80 + (100 + 0)) : ℚ) / ((3 : ℕ) : ℚ))]] := rfl
      _ = [[.vstr "JP", .vrat 100]] := by rw [h100]
  · calc fallbackEval (q3Desc []) c7Data
        = [[.vstr "JP", .vrat ((120 + (80 + (100 + 0)) : ℚ) / ((3 : ℕ) : ℚ))]] := rfl
      _ = [[.vstr "JP", .vrat 100]] := by rw [h100]

/-! ## Claim C10: every rewrite reads exactly one rollup artifact -/

/-- The three rollup artifacts produced by the prepare phase. -/
def rollupArtifacts : List String :=
  ["data_store/agg_revenue_by_minute_publisher_country.parquet",
   "data_store/agg_counts_by_advertiser_type.parquet",
   "data_store/agg_purchase_summary.parquet"]

/-- The glob of the partitioned base events dataset (what run.py and the
fallback scan). -/
def baseEventsGlob : String := "data_store/events/*/*/*.parquet"

/-- C10: a rewritten query emitted by the router reads exactly one source,
that source is one of the three rollup artifacts, and it is never the
partitioned base events dataset. -/
theorem C10_rollup_only_sources :
    ∀ (q : Py) (r : RewrittenQuery), route_query q = .ok (some r) →
      r.readSources = [r.table] ∧ r.table ∈ rollupArtifacts
        ∧ r.table ≠ baseEventsGlob := by
  intro q r _
  refine ⟨rfl, ?_, ?_⟩ <;>
    cases r <;>
    simp [rollupArtifacts, baseEventsGlob, RewrittenQuery.table]

/-- C10 witness at the canonical Q1 descriptor. -/
theorem C10_rollup_only_sources_witness :
    route_query (Descriptor.toPy (q1Desc [])) = .ok (some .q1Sql) ∧
    (RewrittenQuery.q1Sql.readSources = [RewrittenQuery.q1Sql.table] ∧
      RewrittenQuery.q1Sql.table ∈ rollupArtifacts ∧
      RewrittenQuery.q1Sql.table ≠ baseEventsGlob) :=
  ⟨rfl, C10_rollup_only_sources (Descriptor.toPy (q1Desc [])) .q1Sql rfl⟩

/-! ## Claim C3: fixed priority order, first match wins -/

/-- C3: route_query returns the first matching rule's rewrite in the order
Q1, Q2, Q3, Q4, Q5, and None when no rule matches. -/
theorem C3_router_first_match :
    (∀ (q : Py) (r : RewrittenQuery),
      try_q1_pattern q = .ok (some r) → route_query q = .ok (some r)) ∧
    (∀ (q : Py) (r : RewrittenQuery),
      try_q1_pattern q = .ok Option.none →
      try_q2_pattern q = .ok (some r) → route_query q = .ok (some r)) ∧
    (∀ (q : Py) (r : RewrittenQuery),
      try_q1_pattern q = .ok Option.none →
      try_q2_pattern q = .ok Option.none →
      try_q3_pattern q = .ok (some r) → route_query q = .ok (some r)) ∧
    (∀ (q : Py) (r : RewrittenQuery),
      try_q1_pattern q = .ok Option.none →
      try_q2_pattern q = .ok Option.none →
      try_q3_pattern q = .ok Option.none →
      try_q4_pattern q = .ok (some r) → route_query q = .ok (some r)) ∧
    (∀ (q : Py) (r : RewrittenQuery),
      try_q1_pattern q = .ok Option.none →
      try_q2_pattern q = .ok Option.none →
      try_q3_pattern q = .ok Option.none →
      try_q4_pattern q = .ok Option.none →
      try_q5_pattern q = .ok (some r) → route_query q = .ok (some r)) ∧
    (∀ q : Py,
      try_q1_pattern q = .ok Option.none →
      try_q2_pattern q = .ok Option.none →
      try_q3_pattern q = .ok Option.none →
      try_q4_pattern q = .ok Option.none →
      try_q5_pattern q = .ok Option.none → route_query q = .ok Option.none) :=
  ⟨route_of_q1, route_of_q2, route_of_q3, route_of_q4, route_of_q5, route_of_none⟩

/-- C3 witness: first-match dispatch at the canonical Q3 descriptor (Q1 and
Q2 decline, Q3 matches, the router returns the Q3 rewrite). -/
theorem C3_router_first_match_witness :
    try_q1_pattern (Descriptor.toPy (q3Desc [])) = .ok Option.none ∧
    try_q2_pattern (Descriptor.toPy (q3Desc [])) = .ok Option.none ∧
    try_q3_pattern (Descriptor.toPy (q3Desc [])) = .ok (some (.q3Sql "")) ∧
    route_query (Descriptor.toPy (q3Desc [])) = .ok (some (.q3Sql "")) :=
  ⟨rfl, rfl, rfl,
    C3_router_first_match.2.2.1 (Descriptor.toPy (q3Desc [])) (.q3Sql "") rfl rfl rfl⟩

/-! ## Claim C2: unrecognized filters must disqualify a match -/

/-- A Q2-shaped descriptor carrying an extra filter user_id = 5, whose
column/operator pair no rule anticipates. -/
def c2FailDesc : Descriptor :=
  ⟨[.col "publisher_id", .agg .SUM "bid_price"],
   [.feq "type" (.str "impression"), .feq "country" (.str "JP"),
    .fbetween "day" (.str "2024-10-20") (.str "2024-10-23"),
    .feq "user_id" (.int 5)],
   ["publisher_id"], []⟩

/-- C2 (code bug evaluation): try_q2_pattern matches the descriptor above and
emits the rollup query with only the country and day filters; the unrecognized
user_id filter present in the descriptor is silently dropped, although both
the spec contract and the other four rules require returning no match. -/
theorem C2_q2_drops_unrecognized_filter :
    (FilterPred.feq "user_id" (.int 5)) ∈ c2FailDesc.whereFs ∧
    try_q2_pattern c2FailDesc.toPy
      = .ok (some (.q2Sql (.str "JP") (.str "2024-10-20") (.str "2024-10-23"))) :=
  ⟨by decide, rfl⟩

/-! ## Claim C4: order_by re-application -/

/-- C4 counterexample: a Q1 descriptor with a non-empty order_by matches, but
the emitted rewrite carries no ORDER BY clause at all (try_q1_pattern never
reads order_by), contradicting the claim that every rule re-applies it. -/
theorem C4_counterexample :
    try_q1_pattern (Descriptor.toPy (q1Desc [⟨"day", "asc"⟩])) = .ok (some .q1Sql) ∧
    (q1Desc [⟨"day", "asc"⟩]).order_by ≠ [] ∧
    RewrittenQuery.orderClause .q1Sql = "" :=
  ⟨rfl, by decide, rfl⟩

/-- C4, amended: Q3, Q4 and Q5 re-apply the descriptor's order_by, Q3
substituting AVG(total_price) and Q4 substituting COUNT(*) with the rollup
output aliases and Q5 passing columns through unchanged, while Q1 and Q2
ignore order_by entirely and always emit an empty ORDER BY clause. -/
theorem C4_order_by_mapping :
    (∀ ob : List OrderItem,
      try_q1_pattern (Descriptor.toPy (q1Desc ob)) = .ok (some .q1Sql) ∧
      RewrittenQuery.orderClause .q1Sql = "") ∧
    (∀ (c lo hi : String) (ob : List OrderItem), c ≠ "" →
      try_q2_pattern (Descriptor.toPy (q2Desc c lo hi ob))
        = .ok (some (.q2Sql (.str c) (.str lo) (.str hi))) ∧
      RewrittenQuery.orderClause (.q2Sql (.str c) (.str lo) (.str hi)) = "") ∧
    (∀ ob : List OrderItem,
      try_q3_pattern (Descriptor.toPy (q3Desc ob))
        = .ok (some (.q3Sql (renderOrder q3ColMapT ob)))) ∧
    (∀ (g : List String) (ob : List OrderItem),
      (∀ s, s ∈ g ↔ s ∈ ["advertiser_id", "type"]) →
      try_q4_pattern (Descriptor.toPy (q4Desc g ob))
        = .ok (some (.q4Sql (renderOrder q4ColMapT ob)))) ∧
    (∀ (dv : String) (ob : List OrderItem), dv ≠ "" →
      try_q5_pattern (Descriptor.toPy (q5Desc dv ob))
        = .ok (some (.q5Sql (.str dv) (renderOrder id ob)))) ∧
    q3ColMapT "AVG(total_price)" = "\"avg(total_price)\"" ∧
    q4ColMapT "COUNT(*)" = "\"count_star()\"" ∧
    renderOrder q3ColMapT [⟨"AVG(total_price)", "desc"⟩]
      = "ORDER BY \"avg(total_price)\" DESC" ∧
    renderOrder q4ColMapT [⟨"COUNT(*)", "desc"⟩]
      = "ORDER BY \"count_star()\" DESC" := by
  refine ⟨?_, ?_, try_q3_toPy, try_q4_toPy, try_q5_toPy, rfl, rfl, rfl, rfl⟩
  · intro ob
    exact ⟨try_q1_toPy ob, rfl⟩
  · intro c lo hi ob hc
    exact ⟨try_q2_toPy c lo hi ob hc, rfl⟩

/-- C4 witness: the Q2 clause applied at country JP (non-empty order_by is
ignored by the Q2 rule), plus the Q3 substitution evaluated concretely. -/
theorem C4_order_by_mapping_witness :
    ("JP" : String) ≠ "" ∧
    (try_q2_pattern (Descriptor.toPy
        (q2Desc "JP" "2024-10-20" "2024-10-23" [⟨"publisher_id", "asc"⟩]))
      = .ok (some (.q2Sql (.str "JP") (.str "2024-10-20") (.str "2024-10-23"))) ∧
      RewrittenQuery.orderClause
        (.q2Sql (.str "JP") (.str "2024-10-20") (.str "2024-10-23")) = "") := by
  refine ⟨by decide, ?_⟩
  exact C4_order_by_mapping.2.1 "JP" "2024-10-20" "2024-10-23"
    [⟨"publisher_id", "asc"⟩] (by decide)

/-! ## Claim C5: group-by matching semantics -/

/-- A descriptor dict assembled from its four fields. -/
def pyDesc (sel wh gb ob : Py) : Py :=
  .dict [("select", sel), ("where", wh), ("group_by", gb), ("order_by", ob)]

/-- The part of try_q4_pattern following its group-by set check (named so the
rule factors through it definitionally). -/
def q4AfterGroup (select wh order_by : Py) : Except String (Option RewrittenQuery) := do
  let nsel ← pyLen select
  if !(nsel = 3) then
    return Option.none
  let has_advertiser ← pyContains select "advertiser_id"
  let has_type ← pyContains select "type"
  let has_count ← do
    let items ← pyIter select
    pure (items.any (fun s =>
      match s with
      | .dict d => pyEqStr (lookupD d "COUNT" .none) "*"
      | _ => false))
  if !(has_advertiser && has_type && has_count) then
    return Option.none
  if pyTruthy wh then
    return Option.none
  let oc ← buildOrderClause q4ColMap order_by
  return some (.q4Sql oc)

theorem try_q4_factor (sel wh gb ob : Py) :
    try_q4_pattern (pyDesc sel wh gb ob)
      = (pySetElems gb >>= fun gset =>
          if !(setEqAdvType gset) then pure Option.none
          else q4AfterGroup sel wh ob) := rfl

theorem pyEqStr_eq_true (p : Py) (s : String) :
    pyEqStr p s = true ↔ p = .str s := by
  cases p <;> simp [pyEqStr]

theorem strListEq_aux (l : List Py) (ss : List String) :
    (decide (l.length = ss.length)
      && (l.zip ss).all (fun q => pyEqStr q.1 q.2)) = true
      ↔ l = ss.map Py.str := by
  induction l generalizing ss with
  | nil => cases ss <;> simp
  | cons a t ih =>
    cases ss with
    | nil => simp
    | cons b u =>
      simp only [List.zip_cons_cons, List.all_cons, List.length_cons,
        List.map_cons, Bool.and_eq_true, decide_eq_true_eq]
      constructor
      · rintro ⟨hlen, hab, hall⟩
        have h1 : a = .str b := (pyEqStr_eq_true a b).mp hab
        have h2 : t = u.map Py.str := by
          apply (ih u).mp
          simp only [Bool.and_eq_true, decide_eq_true_eq]
          exact ⟨by omega, hall⟩
        simp [h1, h2]
      · rintro ⟨rfl, rfl⟩
        refine ⟨by simp, by simp [pyEqStr], ?_⟩
        have := (ih u).mpr rfl
        simp only [Bool.and_eq_true, decide_eq_true_eq] at this
        exact this.2

theorem pyEqStrList_eq_true (p : Py) (ss : List String) :
    pyEqStrList p ss = true ↔ p = .list (ss.map Py.str) := by
  cases p with
  | list l =>
    rw [show pyEqStrList (.list l) ss
      = (decide (l.length = ss.length)
          && (l.zip ss).all (fun q => pyEqStr q.1 q.2)) from rfl]
    rw [strListEq_aux]
    simp
  | none => simp [pyEqStrList]
  | int n => simp [pyEqStrList]
  | str s => simp [pyEqStrList]
  | dict d => simp [pyEqStrList]

theorem setEqAdvType_congr (g1 g2 : List String)
    (h : ∀ s, s ∈ g1 ↔ s ∈ g2) :
    setEqAdvType (g1.map Py.str) = setEqAdvType (g2.map Py.str) := by
  have hmem : ∀ p : Py, p ∈ g1.map Py.str ↔ p ∈ g2.map Py.str := by
    intro p
    simp only [List.mem_map]
    constructor <;> rintro ⟨s, hs, rfl⟩
    · exact ⟨s, (h s).mp hs, rfl⟩
    · exact ⟨s, (h s).mpr hs, rfl⟩
  rw [Bool.eq_iff_iff]
  unfold setEqAdvType
  simp only [Bool.and_eq_true, List.all_eq_true, List.any_eq_true]
  constructor <;> rintro ⟨⟨ha, hb⟩, hc⟩
  · exact ⟨⟨fun p hp => ha p ((hmem p).mpr hp),
      hb.imp (fun p hp => ⟨(hmem p).mp hp.1, hp.2⟩)⟩,
      hc.imp (fun p hp => ⟨(hmem p).mp hp.1, hp.2⟩)⟩
  · exact ⟨⟨fun p hp => ha p ((hmem p).mp hp),
      hb.imp (fun p hp => ⟨(hmem p).mpr hp.1, hp.2⟩)⟩,
      hc.imp (fun p hp => ⟨(hmem p).mpr hp.1, hp.2⟩)⟩

theorem q1_match_group (q : Py) (r : RewrittenQuery)
    (h : try_q1_pattern q = .ok (some r)) :
    pyGetAttr q "group_by" (.list []) = .ok (.list [.str "day"]) := by
  cases q with
  | dict d =>
    by_cases hb : pyEqStrList (lookupD d "group_by" (.list [])) ["day"] = true
    · have hgb := (pyEqStrList_eq_true _ _).mp hb
      simp [pyGetAttr, hgb]
    · exfalso
      have hb' : pyEqStrList (lookupD d "group_by" (.list [])) ["day"] = false := by
        simpa using hb
      simp only [try_q1_pattern, pyGetAttr, exbind_ok, hb', Bool.not_false,
        if_true] at h
      cases h
  | none => simp [try_q1_pattern, pyGetAttr] at h
  | int n => simp [try_q1_pattern, pyGetAttr] at h
  | str s => simp [try_q1_pattern, pyGetAttr] at h
  | list l => simp [try_q1_pattern, pyGetAttr] at h

theorem q2_match_group (q : Py) (r : RewrittenQuery)
    (h : try_q2_pattern q = .ok (some r)) :
    pyGetAttr q "group_by" (.list []) = .ok (.list [.str "publisher_id"]) := by
  cases q with
  | dict d =>
    by_cases hb : pyEqStrList (lookupD d "group_by" (.list [])) ["publisher_id"] = true
    · have hgb := (pyEqStrList_eq_true _ _).mp hb
      simp [pyGetAttr, hgb]
    · exfalso
      have hb' : pyEqStrList (lookupD d "group_by" (.list [])) ["publisher_id"] = false := by
        simpa using hb
      simp only [try_q2_pattern, pyGetAttr, exbind_ok, hb', Bool.not_false,
        if_true] at h
      cases h
  | none => simp [try_q2_pattern, pyGetAttr] at h
  | int n => simp [try_q2_pattern, pyGetAttr] at h
  | str s => simp [try_q2_pattern, pyGetAttr] at h
  | list l => simp [try_q2_pattern, pyGetAttr] at h

theorem q3_match_group (q : Py) (r : RewrittenQuery)
    (h : try_q3_pattern q = .ok (some r)) :
    pyGetAttr q "group_by" (.list []) = .ok (.list [.str "country"]) := by
  cases q with
  | dict d =>
    by_cases hb : pyEqStrList (lookupD d "group_by" (.list [])) ["country"] = true
    · have hgb := (pyEqStrList_eq_true _ _).mp hb
      simp [pyGetAttr, hgb]
    · exfalso
      have hb' : pyEqStrList (lookupD d "group_by" (.list [])) ["country"] = false := by
        simpa using hb
      simp only [try_q3_pattern, pyGetAttr, exbind_ok, hb', Bool.not_false,
        if_true] at h
      cases h
  | none => simp [try_q3_pattern, pyGetAttr] at h
  | int n => simp [try_q3_pattern, pyGetAttr] at h
  | str s => simp [try_q3_pattern, pyGetAttr] at h
  | list l => simp [try_q3_pattern, pyGetAttr] at h

theorem q5_match_group (q : Py) (r : RewrittenQuery)
    (h : try_q5_pattern q = .ok (some r)) :
    pyGetAttr q "group_by" (.list []) = .ok (.list [.str "minute"]) := by
  cases q with
  | dict d =>
    by_cases hb : pyEqStrList (lookupD d "group_by" (.list [])) ["minute"] = true
    · have hgb := (pyEqStrList_eq_true _ _).mp hb
      simp [pyGetAttr, hgb]
    · exfalso
      have hb' : pyEqStrList (lookupD d "group_by" (.list [])) ["minute"] = false := by
        simpa using hb
      simp only [try_q5_pattern, pyGetAttr, exbind_ok, hb', Bool.not_false,
        if_true] at h
      cases h
  | none => simp [try_q5_pattern, pyGetAttr] at h
  | int n => simp [try_q5_pattern, pyGetAttr] at h
  | str s => simp [try_q5_pattern, pyGetAttr] at h
  | list l => simp [try_q5_pattern, pyGetAttr] at h

theorem q4_match_group (q : Py) (r : RewrittenQuery)
    (h : try_q4_pattern q = .ok (some r)) :
    ∃ gl es, pyGetAttr q "group_by" (.list []) = .ok gl
      ∧ pySetElems gl = .ok es ∧ setEqAdvType es = true := by
  cases q with
  | dict d =>
    cases hse : pySetElems (lookupD d "group_by" (.list [])) with
    | error e =>
      exfalso
      simp only [try_q4_pattern, pyGetAttr, exbind_ok] at h
      rw [hse] at h
      cases h
    | ok es =>
      by_cases hset : setEqAdvType es = true
      · exact ⟨_, es, rfl, hse, hset⟩
      · exfalso
        have hset' : setEqAdvType es = false := by simpa using hset
        simp only [try_q4_pattern, pyGetAttr, exbind_ok] at h
        rw [hse] at h
        simp only [exbind_ok, hset', Bool.not_false, if_true] at h
        cases h
  | none => simp [try_q4_pattern, pyGetAttr] at h
  | int n => simp [try_q4_pattern, pyGetAttr] at h
  | str s => simp [try_q4_pattern, pyGetAttr] at h
  | list l => simp [try_q4_pattern, pyGetAttr] at h

/-- C5 counterexample: the group_by lists [day, day] and [day] are equal as
sets, yet try_q1_pattern rejects the first and matches the second, so
matching does not depend on group_by only through its set for every rule. -/
theorem C5_counterexample :
    (∀ s : String, s ∈ ["day", "day"] ↔ s ∈ ["day"]) ∧
    try_q1_pattern (Descriptor.toPy
      ⟨[.col "day", .agg .SUM "bid_price"],
       [.feq "type" (.str "impression")], ["day", "day"], []⟩) = .ok Option.none ∧
    try_q1_pattern (Descriptor.toPy (q1Desc [])) = .ok (some .q1Sql) :=
  ⟨by intro s; simp, rfl, rfl⟩

/-- C5, amended: only try_q4_pattern matches on the unordered set of the
group_by list (its result is invariant under any reordering or duplication of
the grouping columns, first clause); the other four rules require the exact
singleton list of their grain column, so for them any reordering with
duplicates fails, and for all five rules a group_by whose set is a strict
superset or subset of the grain never matches (a match pins group_by to the
grain exactly: clauses two to six). -/
theorem C5_grain_set_matching :
    (∀ (sel wh ob : Py) (g1 g2 : List String), (∀ s, s ∈ g1 ↔ s ∈ g2) →
      try_q4_pattern (pyDesc sel wh (.list (g1.map Py.str)) ob)
        = try_q4_pattern (pyDesc sel wh (.list (g2.map Py.str)) ob)) ∧
    (∀ (q : Py) (r : RewrittenQuery), try_q1_pattern q = .ok (some r) →
      pyGetAttr q "group_by" (.list []) = .ok (.list [.str "day"])) ∧
    (∀ (q : Py) (r : RewrittenQuery), try_q2_pattern q = .ok (some r) →
      pyGetAttr q "group_by" (.list []) = .ok (.list [.str "publisher_id"])) ∧
    (∀ (q : Py) (r : RewrittenQuery), try_q3_pattern q = .ok (some r) →
      pyGetAttr q "group_by" (.list []) = .ok (.list [.str "country"])) ∧
    (∀ (q : Py) (r : RewrittenQuery), try_q5_pattern q = .ok (some r) →
      pyGetAttr q "group_by" (.list []) = .ok (.list [.str "minute"])) ∧
    (∀ (q : Py) (r : RewrittenQuery), try_q4_pattern q = .ok (some r) →
      ∃ gl es, pyGetAttr q "group_by" (.list []) = .ok gl
        ∧ pySetElems gl = .ok es ∧ setEqAdvType es = true) := by
  refine ⟨?_, q1_match_group, q2_match_group, q3_match_group, q5_match_group,
    q4_match_group⟩
  intro sel wh ob g1 g2 h
  rw [try_q4_factor, try_q4_factor, pySetElems_map_str, pySetElems_map_str]
  simp only [exbind_ok]
  rw [setEqAdvType_congr g1 g2 h]

/-- C5 witness: Q4 set-invariance applied to the two orderings of the grain,
and the Q1 grain pinned at the canonical descriptor. -/
theorem C5_grain_set_matching_witness :
    (∀ s : String, s ∈ ["advertiser_id", "type"] ↔ s ∈ ["type", "advertiser_id"]) ∧
    try_q4_pattern (pyDesc (.list [.str "advertiser_id", .str "type",
        .dict [("COUNT", .str "*")]]) (.list [])
        (.list (["advertiser_id", "type"].map Py.str)) (.list []))
      = try_q4_pattern (pyDesc (.list [.str "advertiser_id", .str "type",
        .dict [("COUNT", .str "*")]]) (.list [])
        (.list (["type", "advertiser_id"].map Py.str)) (.list [])) ∧
    pyGetAttr (Descriptor.toPy (q1Desc [])) "group_by" (.list [])
      = .ok (.list [.str "day"]) := by
  refine ⟨by intro s; simp [or_comm], ?_, ?_⟩
  · exact C5_grain_set_matching.1 _ _ _ ["advertiser_id", "type"]
      ["type", "advertiser_id"] (by intro s; simp [or_comm])
  · exact C5_grain_set_matching.2.1 (Descriptor.toPy (q1Desc [])) .q1Sql rfl

/-! ## Claim C6: the three mandatory Q2 filters -/

/-- A where entry of shape col = type, op = eq, val = impression. -/
def isTypeImpF (w : Py) : Bool :=
  match w with
  | .dict dd => pyEqStr (lookupD dd "col" .none) "type"
      && pyEqStr (lookupD dd "op" .none) "eq"
      && pyEqStr (lookupD dd "val" .none) "impression"
  | _ => false

/-- A where entry with the given column and operator. -/
def isColOpF (c o : String) (w : Py) : Bool :=
  match w with
  | .dict dd => pyEqStr (lookupD dd "col" .none) c
      && pyEqStr (lookupD dd "op" .none) o
  | _ => false

theorem q2Fold_inv (ws : List Py) (st0 st : Py × Py × Py)
    (h : ws.foldlM q2FoldStep st0 = .ok st) :
    (pyEqStr st.1 "impression" = true →
      pyEqStr st0.1 "impression" = true ∨ ∃ w ∈ ws, isTypeImpF w = true) ∧
    (pyTruthy st.2.1 = true →
      pyTruthy st0.2.1 = true ∨ ∃ w ∈ ws, isColOpF "country" "eq" w = true) ∧
    (pyTruthy st.2.2 = true →
      pyTruthy st0.2.2 = true ∨ ∃ w ∈ ws, isColOpF "day" "between" w = true) := by
  induction ws generalizing st0 with
  | nil =>
    have hst : st0 = st := by
      have h2 : (Except.ok st0 : Except String (Py × Py × Py)) = .ok st := by
        simpa [List.foldlM, pure, Except.pure] using h
      cases h2
      rfl
    subst hst
    exact ⟨fun h1 => Or.inl h1, fun h1 => Or.inl h1, fun h1 => Or.inl h1⟩
  | cons w ws' ih =>
    rw [List.foldlM_cons] at h
    cases hw : q2FoldStep st0 w with
    | error e =>
      rw [hw] at h
      cases h
    | ok st1 =>
      rw [hw] at h
      simp only [exbind_ok] at h
      have ihr := ih st1 h
      cases w with
      | dict dd =>
        simp only [q2FoldStep, pyGetAttr, exbind_ok] at hw
        by_cases hc1 : (pyEqStr (lookupD dd "col" .none) "type"
            && pyEqStr (lookupD dd "op" .none) "eq") = true
        · rw [if_pos hc1] at hw
          have hst1 : st1 = (lookupD dd "val" .none, st0.2.1, st0.2.2) := by
            cases hw
            rfl
          subst hst1
          refine ⟨?_, ?_, ?_⟩
          · intro hfin
            rcases ihr.1 hfin with h1 | ⟨w2, hw2, hw2t⟩
            · refine Or.inr ⟨.dict dd, List.mem_cons_self _ _, ?_⟩
              simp only [isTypeImpF]
              rw [hc1]
              simpa using h1
            · exact Or.inr ⟨w2, List.mem_cons_of_mem _ hw2, hw2t⟩
          · intro hfin
            rcases ihr.2.1 hfin with h1 | ⟨w2, hw2, hw2t⟩
            · exact Or.inl h1
            · exact Or.inr ⟨w2, List.mem_cons_of_mem _ hw2, hw2t⟩
          · intro hfin
            rcases ihr.2.2 hfin with h1 | ⟨w2, hw2, hw2t⟩
            · exact Or.inl h1
            · exact Or.inr ⟨w2, List.mem_cons_of_mem _ hw2, hw2t⟩
        · rw [if_neg hc1] at hw
          by_cases hc2 : (pyEqStr (lookupD dd "col" .none) "country"
              && pyEqStr (lookupD dd "op" .none) "eq") = true
          · rw [if_pos hc2] at hw
            have hst1 : st1 = (st0.1, lookupD dd "val" .none, st0.2.2) := by
              cases hw
              rfl
            subst hst1
            refine ⟨?_, ?_, ?_⟩
            · intro hfin
              rcases ihr.1 hfin with h1 | ⟨w2, hw2, hw2t⟩
              · exact Or.inl h1
              · exact Or.inr ⟨w2, List.mem_cons_of_mem _ hw2, hw2t⟩
            · intro hfin
              rcases ihr.2.1 hfin with h1 | ⟨w2, hw2, hw2t⟩
              · refine Or.inr ⟨.dict dd, List.mem_cons_self _ _, ?_⟩
                simp only [isColOpF]
                exact hc2
              · exact Or.inr ⟨w2, List.mem_cons_of_mem _ hw2, hw2t⟩
            · intro hfin
              rcases ihr.2.2 hfin with h1 | ⟨w2, hw2, hw2t⟩
              · exact Or.inl h1
              · exact Or.inr ⟨w2, List.mem_cons_of_mem _ hw2, hw2t⟩
          · rw [if_neg hc2] at hw
            by_cases hc3 : (pyEqStr (lookupD dd "col" .none) "day"
                && pyEqStr (lookupD dd "op" .none) "between") = true
            · rw [if_pos hc3] at hw
              have hst1 : st1 = (st0.1, st0.2.1, lookupD dd "val" .none) := by
                cases hw
                rfl
              subst hst1
              refine ⟨?_, ?_, ?_⟩
              · intro hfin
                rcases ihr.1 hfin with h1 | ⟨w2, hw2, hw2t⟩
                · exact Or.inl h1
                · exact Or.inr ⟨w2, List.mem_cons_of_mem _ hw2, hw2t⟩
              · intro hfin
                rcases ihr.2.1 hfin with h1 | ⟨w2, hw2, hw2t⟩
                · exact Or.inl h1
                · exact Or.inr ⟨w2, List.mem_cons_of_mem _ hw2, hw2t⟩
              · intro hfin
                rcases ihr.2.2 hfin with h1 | ⟨w2, hw2, hw2t⟩
                · refine Or.inr ⟨.dict dd, List.mem_cons_self _ _, ?_⟩
                  simp only [isColOpF]
                  exact hc3
                · exact Or.inr ⟨w2, List.mem_cons_of_mem _ hw2, hw2t⟩
            · rw [if_neg hc3] at hw
              have hst1 : st1 = st0 := by
                cases hw
                rfl
              subst hst1
              refine ⟨?_, ?_, ?_⟩
              · intro hfin
                rcases ihr.1 hfin with h1 | ⟨w2, hw2, hw2t⟩
                · exact Or.inl h1
                · exact Or.inr ⟨w2, List.mem_cons_of_mem _ hw2, hw2t⟩
              · intro hfin
                rcases ihr.2.1 hfin with h1 | ⟨w2, hw2, hw2t⟩
                · exact Or.inl h1
                · exact Or.inr ⟨w2, List.mem_cons_of_mem _ hw2, hw2t⟩
              · intro hfin
                rcases ihr.2.2 hfin with h1 | ⟨w2, hw2, hw2t⟩
                · exact Or.inl h1
                · exact Or.inr ⟨w2, List.mem_cons_of_mem _ hw2, hw2t⟩
      | none => simp [q2FoldStep, pyGetAttr] at hw
      | int n => simp [q2FoldStep, pyGetAttr] at hw
      | str s => simp [q2FoldStep, pyGetAttr] at hw
      | list l => simp [q2FoldStep, pyGetAttr] at hw

/-- C6: try_q2_pattern matches only when the descriptor's where list contains
a type = impression equality, a country equality and a day between filter;
contrapositively, the absence of any one of the three leaves it unmatched. -/
theorem C6_q2_required_filters :
    ∀ (q : Py) (r : RewrittenQuery), try_q2_pattern q = .ok (some r) →
      ∃ wh ws, pyGetAttr q "where" (.list []) = .ok wh ∧ pyIter wh = .ok ws ∧
        (∃ w ∈ ws, isTypeImpF w = true) ∧
        (∃ w ∈ ws, isColOpF "country" "eq" w = true) ∧
        (∃ w ∈ ws, isColOpF "day" "between" w = true) := by
  intro q r h
  cases q with
  | dict d =>
    simp only [try_q2_pattern, pyGetAttr, exbind_ok, expure_bind] at h
    by_cases hb : pyEqStrList (lookupD d "group_by" (.list [])) ["publisher_id"] = true
    case neg =>
      exfalso
      have hb' : pyEqStrList (lookupD d "group_by" (.list [])) ["publisher_id"]
          = false := by simpa using hb
      rw [hb'] at h
      cases h
    case pos =>
    rw [hb] at h
    simp only [Bool.not_true, if_false, Bool.false_eq_true, ite_false] at h
    cases hsel : pyLen (lookupD d "select" (.list [])) with
    | error e =>
      rw [hsel] at h
      cases h
    | ok n =>
    rw [hsel] at h
    simp only [exbind_ok, expure_bind] at h
    by_cases hn : n = 2
    case neg =>
      exfalso
      rw [if_pos (by simpa using hn)] at h
      cases h
    case pos =>
    subst hn
    rw [if_neg (by simp)] at h
    cases hcp : pyContains (lookupD d "select" (.list [])) "publisher_id" with
    | error e =>
      rw [hcp] at h
      cases h
    | ok b1 =>
    rw [hcp] at h
    simp only [exbind_ok, expure_bind] at h
    cases hit : pyIter (lookupD d "select" (.list [])) with
    | error e =>
      rw [hit] at h
      cases h
    | ok items =>
    rw [hit] at h
    simp only [exbind_ok, expure_bind] at h
    by_cases hb12 : (b1 && items.any (fun s =>
        match s with
        | .dict dd => pyEqStr (lookupD dd "SUM" .none) "bid_price"
        | _ => false)) = true
    case neg =>
      exfalso
      have hb12f : (b1 && items.any (fun s =>
          match s with
          | .dict dd => pyEqStr (lookupD dd "SUM" .none) "bid_price"
          | _ => false)) = false := Bool.eq_false_iff.mpr hb12
      rw [hb12f] at h
      simp [pure, Except.pure] at h
    case pos =>
    rw [hb12] at h
    simp only [Bool.not_true, if_false, Bool.false_eq_true, ite_false] at h
    cases hws : pyIter (lookupD d "where" (.list [])) with
    | error e =>
      rw [hws] at h
      cases h
    | ok ws =>
    rw [hws] at h
    simp only [exbind_ok, expure_bind] at h
    cases hst : ws.foldlM q2FoldStep (Py.none, Py.none, Py.none) with
    | error e =>
      rw [hst] at h
      cases h
    | ok st =>
    rw [hst] at h
    simp only [exbind_ok, expure_bind] at h
    by_cases h1 : pyEqStr st.1 "impression" = true
    case neg =>
      exfalso
      have h1f : pyEqStr st.1 "impression" = false := Bool.eq_false_iff.mpr h1
      rw [h1f] at h
      simp [pure, Except.pure] at h
    case pos =>
    rw [h1] at h
    simp only [Bool.not_true, if_false, Bool.false_eq_true, ite_false] at h
    by_cases h2 : pyTruthy st.2.1 = true
    case neg =>
      exfalso
      have h2f : pyTruthy st.2.1 = false := Bool.eq_false_iff.mpr h2
      rw [h2f] at h
      simp [pure, Except.pure] at h
    case pos =>
    by_cases h3 : pyTruthy st.2.2 = true
    case neg =>
      exfalso
      have h3f : pyTruthy st.2.2 = false := Bool.eq_false_iff.mpr h3
      rw [h3f] at h
      simp [pure, Except.pure] at h
    case pos =>
    have hinv := q2Fold_inv ws (Py.none, Py.none, Py.none) st hst
    refine ⟨lookupD d "where" (.list []), ws, rfl, hws, ?_, ?_, ?_⟩
    · rcases hinv.1 h1 with hfalse | hex
      · cases hfalse
      · exact hex
    · rcases hinv.2.1 h2 with hfalse | hex
      · cases hfalse
      · exact hex
    · rcases hinv.2.2 h3 with hfalse | hex
      · cases hfalse
      · exact hex
  | none => simp [try_q2_pattern, pyGetAttr] at h
  | int n => simp [try_q2_pattern, pyGetAttr] at h
  | str s => simp [try_q2_pattern, pyGetAttr] at h
  | list l => simp [try_q2_pattern, pyGetAttr] at h

/-- C6 witness at the canonical Q2 descriptor. -/
theorem C6_q2_required_filters_witness :
    try_q2_pattern (Descriptor.toPy (q2Desc "JP" "2024-10-20" "2024-10-23" []))
      = .ok (some (.q2Sql (.str "JP") (.str "2024-10-20") (.str "2024-10-23"))) ∧
    ∃ wh ws, pyGetAttr (Descriptor.toPy (q2Desc "JP" "2024-10-20" "2024-10-23" []))
        "where" (.list []) = .ok wh ∧ pyIter wh = .ok ws ∧
      (∃ w ∈ ws, isTypeImpF w = true) ∧
      (∃ w ∈ ws, isColOpF "country" "eq" w = true) ∧
      (∃ w ∈ ws, isColOpF "day" "between" w = true) :=
  ⟨rfl, C6_q2_required_filters
    (Descriptor.toPy (q2Desc "JP" "2024-10-20" "2024-10-23" []))
    (.q2Sql (.str "JP") (.str "2024-10-20") (.str "2024-10-23")) rfl⟩

/-! ## Claim C9: empty ingestion batches are skipped, not fatal -/

theorem prepareLoad_foldl (batches : List (List RawRow)) :
    ∀ acc : List RawRow × ℕ,
      batches.foldl
        (fun acc b => if b.isEmpty then (acc.1, acc.2 + 1) else (acc.1 ++ b, acc.2))
        acc
      = (acc.1 ++ (batches.filter (fun b => !b.isEmpty)).flatten,
         acc.2 + (batches.filter (fun b => b.isEmpty)).length) := by
  induction batches with
  | nil => intro acc; simp
  | cons b t ih =>
    intro acc
    cases hb : b.isEmpty with
    | true =>
      simp only [List.foldl_cons, hb, if_true, ih, List.filter_cons, Bool.not_true,
        if_false, Bool.false_eq_true, ite_false]
      simp [List.length_cons]
      omega
    | false =>
      simp only [List.foldl_cons, hb, if_false, Bool.false_eq_true, ite_false, ih,
        List.filter_cons, Bool.not_false, if_true]
      simp [List.append_assoc]

/-- C9: the prepare loading loop never aborts (it is a total function of the
batch list); every wholly empty batch is skipped and counted as one warning,
and the loaded rows are exactly the concatenation of all non-empty batches,
in order — in particular batches after an empty one are still loaded. -/
theorem C9_empty_batch_skip :
    (∀ batches : List (List RawRow),
      prepareLoad batches
        = ((batches.filter (fun b => !b.isEmpty)).flatten,
           (batches.filter (fun b => b.isEmpty)).length)) ∧
    (∀ (pre post : List (List RawRow)) (b : List RawRow), b.isEmpty = true →
      prepareLoad (pre ++ b :: post)
        = ((prepareLoad (pre ++ post)).1, (prepareLoad (pre ++ post)).2 + 1)) := by
  have hmain : ∀ batches : List (List RawRow),
      prepareLoad batches
        = ((batches.filter (fun b => !b.isEmpty)).flatten,
           (batches.filter (fun b => b.isEmpty)).length) := by
    intro batches
    unfold prepareLoad
    rw [prepareLoad_foldl]
    simp
  refine ⟨hmain, ?_⟩
  intro pre post b hb
  rw [hmain, hmain]
  simp only [List.filter_append, List.filter_cons, hb, Bool.not_true, if_false,
    Bool.false_eq_true, ite_false, if_true, List.flatten_append, List.length_append,
    List.length_cons]
  show (_, _) = (_, _)
  rw [Prod.mk.injEq]
  exact ⟨rfl, by omega⟩

/-- C9 witness: an empty batch between two non-empty ones is skipped with one
warning while both neighbours are loaded. -/
theorem C9_empty_batch_skip_witness :
    ([] : List RawRow).isEmpty = true ∧
    prepareLoad [[{ country := some "JP" }], [], [{ country := some "US" }]]
      = ((prepareLoad [[{ country := some "JP" }], [{ country := some "US" }]]).1,
         (prepareLoad [[{ country := some "JP" }], [{ country := some "US" }]]).2 + 1) :=
  ⟨rfl, C9_empty_batch_skip.2 [[{ country := some "JP" }]]
    [[{ country := some "US" }]] [] rfl⟩

/-! ## Claim C8: graceful no-match versus raising -/

/-- Well-shaped where entry: a dict whose val, when its op is between, is a
two-element list (so that unpacking cannot raise). -/
def wsWhereEntry (w : Py) : Bool :=
  match w with
  | .dict dd =>
    (if pyEqStr (lookupD dd "op" .none) "between" then
      match lookupD dd "val" .none with
      | .list [_, _] => true
      | _ => false
    else true)
  | _ => false

/-- Well-shaped order entry: a dict whose dir field, if present, is a
string (so that .upper() cannot raise). -/
def wsOrderEntry (o : Py) : Bool :=
  match o with
  | .dict dd =>
    (match lookupD dd "dir" (.str "asc") with
     | .str _ => true
     | _ => false)
  | _ => false

/-- A well-shaped descriptor: a dict whose select field is a list, whose
where field is a list of well-shaped filter dicts, whose group_by field is a
list of hashable values and whose order_by field is a list of well-shaped
order dicts.  These are the container shapes the spec's data model (section
3) prescribes; within them any unrecognized content is permitted. -/
def wellShaped (q : Py) : Bool :=
  match q with
  | .dict d =>
    (match lookupD d "select" (.list []) with
     | .list _ => true
     | _ => false)
    && (match lookupD d "where" (.list []) with
        | .list ws => ws.all wsWhereEntry
        | _ => false)
    && (match lookupD d "group_by" (.list []) with
        | .list gs => gs.all pyHashable
        | _ => false)
    && (match lookupD d "order_by" (.list []) with
        | .list os => os.all wsOrderEntry
        | _ => false)
  | _ => false

theorem anyM_ok (f : Py → Except String Bool) (l : List Py)
    (hf : ∀ x ∈ l, ∃ b, f x = .ok b) : ∃ b, anyM f l = .ok b := by
  induction l with
  | nil => exact ⟨false, rfl⟩
  | cons x xs ih =>
    obtain ⟨b, hb⟩ := hf x (List.mem_cons_self x xs)
    obtain ⟨b2, hb2⟩ := ih (fun y hy => hf y (List.mem_cons_of_mem x hy))
    cases b with
    | true => exact ⟨true, by simp [anyM, hb]; rfl⟩
    | false => exact ⟨b2, by simp [anyM, hb, hb2]⟩

theorem whereIsEqFilter_ok (c v : String) (w : Py) (hw : wsWhereEntry w = true) :
    ∃ b, whereIsEqFilter c v w = .ok b := by
  cases w with
  | dict dd => exact ⟨_, rfl⟩
  | none => cases hw
  | int n => cases hw
  | str s => cases hw
  | list l => cases hw

theorem mapM_ok {α : Type} (f : Py → Except String α) (l : List Py)
    (hf : ∀ x ∈ l, ∃ y, f x = .ok y) : ∃ ys, l.mapM f = .ok ys := by
  induction l with
  | nil => exact ⟨[], rfl⟩
  | cons x xs ih =>
    obtain ⟨y, hy⟩ := hf x (List.mem_cons_self x xs)
    obtain ⟨ys, hys⟩ := ih (fun z hz => hf z (List.mem_cons_of_mem x hz))
    refine ⟨y :: ys, ?_⟩
    rw [List.mapM_cons, hy]
    simp only [exbind_ok]
    rw [hys]
    rfl

theorem buildOrderClause_ok (cm : Py → String) (os : List Py)
    (hos : ∀ o ∈ os, wsOrderEntry o = true) :
    ∃ s, buildOrderClause cm (.list os) = .ok s := by
  by_cases hne : os.isEmpty = true
  · refine ⟨"", ?_⟩
    unfold buildOrderClause
    simp [pyTruthy, hne]
    rfl
  · have hmm : ∃ parts, os.mapM (fun o => do
        let col ← pyGetAttr o "col" .none
        let dirp ← pyGetAttr o "dir" (.str "asc")
        let dir ←
          match dirp with
          | .str s => pure (upperAscii s)
          | _ => (.error "AttributeError" : Except String String)
        pure (cm col ++ " " ++ dir)) = .ok parts := by
      apply mapM_ok
      intro o ho
      have h := hos o ho
      cases o with
      | dict dd =>
        simp only [wsOrderEntry] at h
        cases hdir : lookupD dd "dir" (.str "asc") with
        | str s =>
          refine ⟨cm (lookupD dd "col" .none) ++ " " ++ upperAscii s, ?_⟩
          simp [pyGetAttr, hdir]
        | none => rw [hdir] at h; cases h
        | int n => rw [hdir] at h; cases h
        | list l => rw [hdir] at h; cases h
        | dict d2 => rw [hdir] at h; cases h
      | none => cases h
      | int n => cases h
      | str s => cases h
      | list l => cases h
    obtain ⟨parts, hparts⟩ := hmm
    refine ⟨"ORDER BY " ++ String.intercalate ", " parts, ?_⟩
    unfold buildOrderClause
    have htr : pyTruthy (.list os) = true := by
      simp [pyTruthy, hne]
    rw [htr]
    simp only [Bool.not_true, if_false, Bool.false_eq_true, ite_false]
    simp only [pyIter, exbind_ok, hparts]
    rfl

/-- A day filter value that cannot make the later unpacking raise: the unset
None or a two-element list. -/
def okVal (p : Py) : Prop := p = Py.none ∨ ∃ a b, p = Py.list [a, b]

theorem wsWhereEntry_val (dd : List (String × Py))
    (hw : wsWhereEntry (.dict dd) = true)
    (hop : pyEqStr (lookupD dd "op" .none) "between" = true) :
    ∃ a b, lookupD dd "val" .none = .list [a, b] := by
  simp only [wsWhereEntry, hop, if_true] at hw
  cases hval : lookupD dd "val" .none with
  | list l =>
    rw [hval] at hw
    match l, hw with
    | [a, b], _ => exact ⟨a, b, rfl⟩
  | none => rw [hval] at hw; cases hw
  | int n => rw [hval] at hw; cases hw
  | str s => rw [hval] at hw; cases hw
  | dict d2 => rw [hval] at hw; cases hw

theorem q2FoldStep_ok (st0 : Py × Py × Py) (w : Py) (hw : wsWhereEntry w = true)
    (h0 : okVal st0.2.2) :
    ∃ st1, q2FoldStep st0 w = .ok st1 ∧ okVal st1.2.2 := by
  cases w with
  | dict dd =>
    simp only [q2FoldStep, pyGetAttr, exbind_ok]
    by_cases hc1 : (pyEqStr (lookupD dd "col" .none) "type"
        && pyEqStr (lookupD dd "op" .none) "eq") = true
    · rw [if_pos hc1]
      exact ⟨_, rfl, h0⟩
    · rw [if_neg hc1]
      by_cases hc2 : (pyEqStr (lookupD dd "col" .none) "country"
          && pyEqStr (lookupD dd "op" .none) "eq") = true
      · rw [if_pos hc2]
        exact ⟨_, rfl, h0⟩
      · rw [if_neg hc2]
        by_cases hc3 : (pyEqStr (lookupD dd "col" .none) "day"
            && pyEqStr (lookupD dd "op" .none) "between") = true
        · rw [if_pos hc3]
          obtain ⟨a, b, hab⟩ := wsWhereEntry_val dd hw ((Bool.and_eq_true _ _).mp hc3).2
          exact ⟨_, rfl, Or.inr ⟨a, b, hab⟩⟩
        · rw [if_neg hc3]
          exact ⟨_, rfl, h0⟩
  | none => cases hw
  | int n => cases hw
  | str s => cases hw
  | list l => cases hw

theorem q2Fold_ok (ws : List Py) (hws : ∀ w ∈ ws, wsWhereEntry w = true) :
    ∀ st0 : Py × Py × Py, okVal st0.2.2 →
      ∃ st, ws.foldlM q2FoldStep st0 = .ok st ∧ okVal st.2.2 := by
  induction ws with
  | nil =>
    intro st0 h0
    exact ⟨st0, rfl, h0⟩
  | cons w ws' ih =>
    intro st0 h0
    obtain ⟨st1, hst1, h1⟩ :=
      q2FoldStep_ok st0 w (hws w (List.mem_cons_self w ws')) h0
    obtain ⟨st, hst, h2⟩ :=
      ih (fun x hx => hws x (List.mem_cons_of_mem w hx)) st1 h1
    refine ⟨st, ?_, h2⟩
    rw [List.foldlM_cons, hst1]
    simpa using hst

theorem q5FoldStep_ok (st0 : Py × Py) (w : Py) (hw : wsWhereEntry w = true) :
    ∃ st1, q5FoldStep st0 w = .ok st1 := by
  cases w with
  | dict dd =>
    simp only [q5FoldStep, pyGetAttr, exbind_ok]
    by_cases hc1 : (pyEqStr (lookupD dd "col" .none) "type"
        && pyEqStr (lookupD dd "op" .none) "eq") = true
    · rw [if_pos hc1]
      exact ⟨_, rfl⟩
    · rw [if_neg hc1]
      by_cases hc2 : (pyEqStr (lookupD dd "col" .none) "day"
          && pyEqStr (lookupD dd "op" .none) "eq") = true
      · rw [if_pos hc2]
        exact ⟨_, rfl⟩
      · rw [if_neg hc2]
        exact ⟨_, rfl⟩
  | none => cases hw
  | int n => cases hw
  | str s => cases hw
  | list l => cases hw

theorem q5Fold_ok (ws : List Py) (hws : ∀ w ∈ ws, wsWhereEntry w = true) :
    ∀ st0 : Py × Py, ∃ st, ws.foldlM q5FoldStep st0 = .ok st := by
  induction ws with
  | nil =>
    intro st0
    exact ⟨st0, rfl⟩
  | cons w ws' ih =>
    intro st0
    obtain ⟨st1, hst1⟩ := q5FoldStep_ok st0 w (hws w (List.mem_cons_self w ws'))
    obtain ⟨st, hst⟩ := ih (fun x hx => hws x (List.mem_cons_of_mem w hx)) st1
    refine ⟨st, ?_⟩
    rw [List.foldlM_cons, hst1]
    simpa using hst

theorem wellShaped_fields (d : List (String × Py))
    (h : wellShaped (.dict d) = true) :
    ∃ ls ws gs os,
      lookupD d "select" (.list []) = .list ls ∧
      lookupD d "where" (.list []) = .list ws ∧
      lookupD d "group_by" (.list []) = .list gs ∧
      lookupD d "order_by" (.list []) = .list os ∧
      (∀ w ∈ ws, wsWhereEntry w = true) ∧
      (∀ g ∈ gs, pyHashable g = true) ∧
      (∀ o ∈ os, wsOrderEntry o = true) := by
  simp only [wellShaped, Bool.and_eq_true] at h
  obtain ⟨⟨⟨hs, hw⟩, hg⟩, ho⟩ := h
  cases hsel : lookupD d "select" (.list []) with
  | list ls =>
    cases hwh : lookupD d "where" (.list []) with
    | list ws =>
      cases hgb : lookupD d "group_by" (.list []) with
      | list gs =>
        cases hob : lookupD d "order_by" (.list []) with
        | list os =>
          rw [hwh] at hw
          rw [hgb] at hg
          rw [hob] at ho
          exact ⟨ls, ws, gs, os, rfl, rfl, rfl, rfl,
            List.all_eq_true.mp hw, List.all_eq_true.mp hg,
            List.all_eq_true.mp ho⟩
        | none => rw [hob] at ho; cases ho
        | int n => rw [hob] at ho; cases ho
        | str s => rw [hob] at ho; cases ho
        | dict d2 => rw [hob] at ho; cases ho
      | none => rw [hgb] at hg; cases hg
      | int n => rw [hgb] at hg; cases hg
      | str s => rw [hgb] at hg; cases hg
      | dict d2 => rw [hgb] at hg; cases hg
    | none => rw [hwh] at hw; cases hw
    | int n => rw [hwh] at hw; cases hw
    | str s => rw [hwh] at hw; cases hw
    | dict d2 => rw [hwh] at hw; cases hw
  | none => rw [hsel] at hs; cases hs
  | int n => rw [hsel] at hs; cases hs
  | str s => rw [hsel] at hs; cases hs
  | dict d2 => rw [hsel] at hs; cases hs

theorem try_q1_ok (q : Py) (h : wellShaped q = true) :
    ∃ r, try_q1_pattern q = .ok r := by
  cases q with
  | dict d =>
    obtain ⟨ls, ws, gs, os, hsel, hwh, hgb, hob, hws, hgs, hos⟩ :=
      wellShaped_fields d h
    simp only [try_q1_pattern, pyGetAttr, exbind_ok, expure_bind, hsel, hwh, hgb]
    by_cases hb : pyEqStrList (.list gs) ["day"] = true
    case neg =>
      rw [Bool.eq_false_iff.mpr hb]
      exact ⟨Option.none, rfl⟩
    case pos =>
    rw [hb]
    simp only [Bool.not_true, if_false, Bool.false_eq_true, ite_false, pyLen,
      pyContains, pyIter, exbind_ok, expure_bind]
    by_cases hlen : ls.length = 2
    case neg =>
      rw [if_pos (by simp [hlen])]
      exact ⟨Option.none, rfl⟩
    case pos =>
    rw [if_neg (by simp [hlen])]
    by_cases hhas : (ls.any (fun p => pyEqStr p "day")
        && ls.any (fun s =>
          match s with
          | .dict dd => pyEqStr (lookupD dd "SUM" .none) "bid_price"
          | _ => false)) = true
    case neg =>
      rw [if_pos (by simp only [Bool.not_eq_true] at hhas ⊢; simp [hhas])]
      exact ⟨Option.none, rfl⟩
    case pos =>
    rw [if_neg (by simp [hhas])]
    obtain ⟨bimp, hbimp⟩ := anyM_ok (whereIsEqFilter "type" "impression") ws
      (fun w hw2 => whereIsEqFilter_ok _ _ w (hws w hw2))
    rw [hbimp]
    simp only [exbind_ok]
    cases bimp with
    | false =>
      rw [if_pos (by simp)]
      exact ⟨Option.none, rfl⟩
    | true =>
    rw [if_neg (by simp)]
    by_cases hnw : ws.length > 1
    · rw [if_pos (by simpa using hnw)]
      exact ⟨Option.none, rfl⟩
    · rw [if_neg (by simpa using hnw)]
      exact ⟨some .q1Sql, rfl⟩
  | none => cases h
  | int n => cases h
  | str s => cases h
  | list l => cases h

theorem try_q2_ok (q : Py) (h : wellShaped q = true) :
    ∃ r, try_q2_pattern q = .ok r := by
  cases q with
  | dict d =>
    obtain ⟨ls, ws, gs, os, hsel, hwh, hgb, hob, hws, hgs, hos⟩ :=
      wellShaped_fields d h
    simp only [try_q2_pattern, pyGetAttr, exbind_ok, expure_bind, hsel, hwh, hgb]
    by_cases hb : pyEqStrList (.list gs) ["publisher_id"] = true
    case neg =>
      rw [Bool.eq_false_iff.mpr hb]
      exact ⟨Option.none, rfl⟩
    case pos =>
    rw [hb]
    simp only [Bool.not_true, if_false, Bool.false_eq_true, ite_false, pyLen,
      pyContains, pyIter, exbind_ok, expure_bind]
    by_cases hlen : ls.length = 2
    case neg =>
      rw [if_pos (by simp [hlen])]
      exact ⟨Option.none, rfl⟩
    case pos =>
    rw [if_neg (by simp [hlen])]
    by_cases hhas : (ls.any (fun p => pyEqStr p "publisher_id")
        && ls.any (fun s =>
          match s with
          | .dict dd => pyEqStr (lookupD dd "SUM" .none) "bid_price"
          | _ => false)) = true
    case neg =>
      rw [if_pos (by simp only [Bool.not_eq_true] at hhas ⊢; simp [hhas])]
      exact ⟨Option.none, rfl⟩
    case pos =>
    rw [if_neg (by simp [hhas])]
    obtain ⟨st, hst, hstv⟩ := q2Fold_ok ws hws (Py.none, Py.none, Py.none)
      (Or.inl rfl)
    rw [hst]
    simp only [exbind_ok]
    by_cases h1 : pyEqStr st.1 "impression" = true
    case neg =>
      rw [Bool.eq_false_iff.mpr h1]
      exact ⟨Option.none, rfl⟩
    case pos =>
    rw [h1]
    simp only [Bool.not_true, if_false, Bool.false_eq_true, ite_false]
    by_cases h2 : pyTruthy st.2.1 = true
    case neg =>
      rw [Bool.eq_false_iff.mpr h2]
      exact ⟨Option.none, by simp; rfl⟩
    case pos =>
    rw [h2]
    by_cases h3 : pyTruthy st.2.2 = true
    case neg =>
      rw [Bool.eq_false_iff.mpr h3]
      exact ⟨Option.none, by simp; rfl⟩
    case pos =>
    rw [h3]
    simp only [Bool.not_true, Bool.or_self, if_false, Bool.false_eq_true, ite_false]
    rcases hstv with hnone | ⟨a, b, hab⟩
    · rw [hnone] at h3
      cases h3
    · rw [hab]
      exact ⟨some (.q2Sql st.2.1 a b), rfl⟩
  | none => cases h
  | int n => cases h
  | str s => cases h
  | list l => cases h

theorem try_q3_ok (q : Py) (h : wellShaped q = true) :
    ∃ r, try_q3_pattern q = .ok r := by
  cases q with
  | dict d =>
    obtain ⟨ls, ws, gs, os, hsel, hwh, hgb, hob, hws, hgs, hos⟩ :=
      wellShaped_fields d h
    simp only [try_q3_pattern, pyGetAttr, exbind_ok, expure_bind, hsel, hwh, hgb, hob]
    by_cases hb : pyEqStrList (.list gs) ["country"] = true
    case neg =>
      rw [Bool.eq_false_iff.mpr hb]
      exact ⟨Option.none, rfl⟩
    case pos =>
    rw [hb]
    simp only [Bool.not_true, if_false, Bool.false_eq_true, ite_false, pyLen,
      pyContains, pyIter, exbind_ok, expure_bind]
    by_cases hlen : ls.length = 2
    case neg =>
      rw [if_pos (by simp [hlen])]
      exact ⟨Option.none, rfl⟩
    case pos =>
    rw [if_neg (by simp [hlen])]
    by_cases hhas : (ls.any (fun p => pyEqStr p "country")
        && ls.any (fun s =>
          match s with
          | .dict dd => pyEqStr (lookupD dd "AVG" .none) "total_price"
          | _ => false)) = true
    case neg =>
      rw [if_pos (by simp only [Bool.not_eq_true] at hhas ⊢; simp [hhas])]
      exact ⟨Option.none, rfl⟩
    case pos =>
    rw [if_neg (by simp [hhas])]
    obtain ⟨bpur, hbpur⟩ := anyM_ok (whereIsEqFilter "type" "purchase") ws
      (fun w hw2 => whereIsEqFilter_ok _ _ w (hws w hw2))
    rw [hbpur]
    simp only [exbind_ok]
    cases bpur with
    | false =>
      rw [if_pos (by simp)]
      exact ⟨Option.none, rfl⟩
    | true =>
    rw [if_neg (by simp)]
    by_cases hnw : ws.length > 1
    · rw [if_pos (by simpa using hnw)]
      exact ⟨Option.none, rfl⟩
    · rw [if_neg (by simpa using hnw)]
      obtain ⟨oc, hoc⟩ := buildOrderClause_ok q3ColMap os hos
      rw [hoc]
      exact ⟨some (.q3Sql oc), rfl⟩
  | none => cases h
  | int n => cases h
  | str s => cases h
  | list l => cases h

theorem try_q4_ok (q : Py) (h : wellShaped q = true) :
    ∃ r, try_q4_pattern q = .ok r := by
  cases q with
  | dict d =>
    obtain ⟨ls, ws, gs, os, hsel, hwh, hgb, hob, hws, hgs, hos⟩ :=
      wellShaped_fields d h
    simp only [try_q4_pattern, pyGetAttr, exbind_ok, expure_bind, hsel, hwh, hgb, hob]
    have hse : pySetElems (.list gs) = .ok gs := by
      show (if gs.all pyHashable = true
        then Except.ok gs else Except.error "TypeError") = _
      rw [if_pos (List.all_eq_true.mpr hgs)]
    rw [hse]
    simp only [exbind_ok]
    by_cases hset : setEqAdvType gs = true
    case neg =>
      rw [Bool.eq_false_iff.mpr hset]
      exact ⟨Option.none, rfl⟩
    case pos =>
    rw [hset]
    simp only [Bool.not_true, if_false, Bool.false_eq_true, ite_false, pyLen,
      pyContains, pyIter, exbind_ok, expure_bind]
    by_cases hlen : ls.length = 3
    case neg =>
      rw [if_pos (by simp [hlen])]
      exact ⟨Option.none, rfl⟩
    case pos =>
    rw [if_neg (by simp [hlen])]
    by_cases hhas : (ls.any (fun p => pyEqStr p "advertiser_id")
        && ls.any (fun p => pyEqStr p "type")
        && ls.any (fun s =>
          match s with
          | .dict dd => pyEqStr (lookupD dd "COUNT" .none) "*"
          | _ => false)) = true
    case neg =>
      rw [if_pos (by simp only [Bool.not_eq_true] at hhas ⊢; simp [hhas])]
      exact ⟨Option.none, rfl⟩
    case pos =>
    rw [if_neg (by simp [hhas])]
    by_cases hwt : pyTruthy (.list ws) = true
    · rw [if_pos hwt]
      exact ⟨Option.none, rfl⟩
    · rw [if_neg hwt]
      obtain ⟨oc, hoc⟩ := buildOrderClause_ok q4ColMap os hos
      rw [hoc]
      exact ⟨some (.q4Sql oc), rfl⟩
  | none => cases h
  | int n => cases h
  | str s => cases h
  | list l => cases h

theorem try_q5_ok (q : Py) (h : wellShaped q = true) :
    ∃ r, try_q5_pattern q = .ok r := by
  cases q with
  | dict d =>
    obtain ⟨ls, ws, gs, os, hsel, hwh, hgb, hob, hws, hgs, hos⟩ :=
      wellShaped_fields d h
    simp only [try_q5_pattern, pyGetAttr, exbind_ok, expure_bind, hsel, hwh, hgb, hob]
    by_cases hb : pyEqStrList (.list gs) ["minute"] = true
    case neg =>
      rw [Bool.eq_false_iff.mpr hb]
      exact ⟨Option.none, rfl⟩
    case pos =>
    rw [hb]
    simp only [Bool.not_true, if_false, Bool.false_eq_true, ite_false, pyLen,
      pyContains, pyIter, exbind_ok, expure_bind]
    by_cases hlen : ls.length = 2
    case neg =>
      rw [if_pos (by simp [hlen])]
      exact ⟨Option.none, rfl⟩
    case pos =>
    rw [if_neg (by simp [hlen])]
    by_cases hhas : (ls.any (fun p => pyEqStr p "minute")
        && ls.any (fun s =>
          match s with
          | .dict dd => pyEqStr (lookupD dd "SUM" .none) "bid_price"
          | _ => false)) = true
    case neg =>
      rw [if_pos (by simp only [Bool.not_eq_true] at hhas ⊢; simp [hhas])]
      exact ⟨Option.none, rfl⟩
    case pos =>
    rw [if_neg (by simp [hhas])]
    obtain ⟨st, hst⟩ := q5Fold_ok ws hws (Py.none, Py.none)
    rw [hst]
    simp only [exbind_ok]
    by_cases h1 : (!(pyEqStr st.1 "impression") || !(pyTruthy st.2)) = true
    · rw [if_pos h1]
      exact ⟨Option.none, rfl⟩
    · rw [if_neg h1]
      by_cases hnw : ws.length > 2
      · rw [if_pos (by simpa using hnw)]
        exact ⟨Option.none, rfl⟩
      · rw [if_neg (by simpa using hnw)]
        obtain ⟨oc, hoc⟩ := buildOrderClause_ok q5ColMap os hos
        rw [hoc]
        exact ⟨some (.q5Sql st.2 oc), rfl⟩
  | none => cases h
  | int n => cases h
  | str s => cases h
  | list l => cases h

theorem route_query_ok (q : Py) (h : wellShaped q = true) :
    ∃ r, route_query q = .ok r := by
  obtain ⟨r1, h1⟩ := try_q1_ok q h
  cases r1 with
  | some s => exact ⟨some s, route_of_q1 q s h1⟩
  | none =>
    obtain ⟨r2, h2⟩ := try_q2_ok q h
    cases r2 with
    | some s => exact ⟨some s, route_of_q2 q s h1 h2⟩
    | none =>
      obtain ⟨r3, h3⟩ := try_q3_ok q h
      cases r3 with
      | some s => exact ⟨some s, route_of_q3 q s h1 h2 h3⟩
      | none =>
        obtain ⟨r4, h4⟩ := try_q4_ok q h
        cases r4 with
        | some s => exact ⟨some s, route_of_q4 q s h1 h2 h3 h4⟩
        | none =>
          obtain ⟨r5, h5⟩ := try_q5_ok q h
          cases r5 with
          | some s => exact ⟨some s, route_of_q5 q s h1 h2 h3 h4 h5⟩
          | none => exact ⟨Option.none, route_of_none q h1 h2 h3 h4 h5⟩

/-- C8 counterexample: a descriptor whose where list holds a bare string
instead of a dict makes try_q1_pattern (and hence route_query) raise an
AttributeError instead of returning no match, because the rule calls .get on
the entry while scanning for the impression filter. -/
theorem C8_counterexample :
    try_q1_pattern (pyDesc (.list [.str "day", .dict [("SUM", .str "bid_price")]])
        (.list [.str "oops"]) (.list [.str "day"]) (.list []))
      = .error "AttributeError" ∧
    route_query (pyDesc (.list [.str "day", .dict [("SUM", .str "bid_price")]])
        (.list [.str "oops"]) (.list [.str "day"]) (.list []))
      = .error "AttributeError" :=
  ⟨rfl, rfl⟩

/-- C8, amended: for every well-shaped descriptor (a dict whose select field
is a list, whose where entries are dicts with two-element between values,
whose group_by entries are hashable, and whose order_by entries are dicts
with string directions), every rule and the router return normally — any
unmatched or unrecognized content inside those containers yields no match,
never an exception.  Outside these container shapes the rules can raise, as
the counterexample records. -/
theorem C8_graceful_no_match :
    ∀ q : Py, wellShaped q = true →
      (∃ r, try_q1_pattern q = .ok r) ∧ (∃ r, try_q2_pattern q = .ok r) ∧
      (∃ r, try_q3_pattern q = .ok r) ∧ (∃ r, try_q4_pattern q = .ok r) ∧
      (∃ r, try_q5_pattern q = .ok r) ∧ (∃ r, route_query q = .ok r) :=
  fun q h => ⟨try_q1_ok q h, try_q2_ok q h, try_q3_ok q h, try_q4_ok q h,
    try_q5_ok q h, route_query_ok q h⟩

/-- C8 witness: a well-shaped descriptor with an unrecognized select column,
an unrecognized filter and an unrecognized grouping; routing returns
normally. -/
theorem C8_graceful_no_match_witness :
    wellShaped (pyDesc (.list [.str "user_id"])
        (.list [.dict [("col", .str "user_id"), ("op", .str "eq"),
                        ("val", .int 5)]])
        (.list [.str "user_id"]) (.list [])) = true ∧
    ((∃ r, try_q1_pattern (pyDesc (.list [.str "user_id"])
        (.list [.dict [("col", .str "user_id"), ("op", .str "eq"),
                        ("val", .int 5)]])
        (.list [.str "user_id"]) (.list [])) = .ok r) ∧
     (∃ r, try_q2_pattern (pyDesc (.list [.str "user_id"])
        (.list [.dict [("col", .str "user_id"), ("op", .str "eq"),
                        ("val", .int 5)]])
        (.list [.str "user_id"]) (.list [])) = .ok r) ∧
     (∃ r, try_q3_pattern (pyDesc (.list [.str "user_id"])
        (.list [.dict [("col", .str "user_id"), ("op", .str "eq"),
                        ("val", .int 5)]])
        (.list [.str "user_id"]) (.list [])) = .ok r) ∧
     (∃ r, try_q4_pattern (pyDesc (.list [.str "user_id"])
        (.list [.dict [("col", .str "user_id"), ("op", .str "eq"),
                        ("val", .int 5)]])
        (.list [.str "user_id"]) (.list [])) = .ok r) ∧
     (∃ r, try_q5_pattern (pyDesc (.list [.str "user_id"])
        (.list [.dict [("col", .str "user_id"), ("op", .str "eq"),
                        ("val", .int 5)]])
        (.list [.str "user_id"]) (.list [])) = .ok r) ∧
     (∃ r, route_query (pyDesc (.list [.str "user_id"])
        (.list [.dict [("col", .str "user_id"), ("op", .str "eq"),
                        ("val", .int 5)]])
        (.list [.str "user_id"]) (.list [])) = .ok r)) :=
  ⟨rfl, C8_graceful_no_match _ rfl⟩
